import Mathlib

/-!
Verification of the sar-report parser (`sar_parser.py` / `sar_metadata.py`).

The development shallowly embeds the parser's data model and operations:

* Python dictionaries are modelled as insertion-ordered association lists
  (`Dict`): `set` replaces in place or appends, `erase` removes, iteration
  order is list order, exactly as CPython dicts behave.
* Python floats are modelled as exact rationals (a hand-rolled
  lowest-terms type `Q`, so all arithmetic reduces in the kernel) plus
  the special values `nan`/`inf`/`-inf` (`PyFloat`); the parser only
  ever compares stored values against zero, so binary rounding of
  decimals is immaterial here and is idealised away.
* `datetime.datetime` is modelled by a six-field record (`Datetime`);
  comparison is field-lexicographic and `timedelta(days=1)` is calendar
  day succession, exactly the operations the source uses.  Absolute
  second counts (for `total_seconds`) are obtained through the standard
  civil-calendar day-numbering algorithm.
* The regular expressions of the source are transcribed into a small
  syntax tree (`RE`) and run by a backtracking matcher with Python's
  leftmost/greedy semantics; a fuel argument (generous, and only consumed
  by repetition unrolling) makes the matcher total.  Every repetition
  body appearing in the transcribed patterns consumes at least one
  character, so the fuel bound is never reached on them.
-/

namespace SarStats

/-! ## Association-list dictionaries (CPython `dict` model) -/

/-- Dictionary as an insertion-ordered association list, as CPython
dicts: updating an existing key keeps its position, fresh keys append. -/
abbrev Dict (κ α : Type) := List (κ × α)

namespace Dict

variable {κ α : Type} [DecidableEq κ]

/-- Lookup (`d[k]` / `d.get(k)`): first binding of the key. -/
def get? : Dict κ α → κ → Option α
  | [], _ => none
  | (k0, v0) :: rest, k => if k0 = k then some v0 else get? rest k

/-- Membership test (`k in d`). -/
def hasKey (d : Dict κ α) (k : κ) : Bool := (d.get? k).isSome

/-- Assignment (`d[k] = v`): replace in place, or append a new binding. -/
def set : Dict κ α → κ → α → Dict κ α
  | [], k, v => [(k, v)]
  | (k0, v0) :: rest, k, v =>
      if k0 = k then (k0, v) :: rest else (k0, v0) :: set rest k v

/-- Removal (`d.pop(k)` wrapped in `try`/`except`): delete the binding
if present, otherwise leave the dictionary unchanged. -/
def erase (d : Dict κ α) (k : κ) : Dict κ α :=
  d.filter (fun p => p.1 ≠ k)

/-- Key view (`d.keys()`), in insertion order. -/
def keys (d : Dict κ α) : List κ := d.map Prod.fst

theorem get?_set_self (d : Dict κ α) (k : κ) (v : α) :
    (d.set k v).get? k = some v := by
  induction d with
  | nil => simp [set, get?]
  | cons p rest ih =>
      obtain ⟨k0, v0⟩ := p
      by_cases h : k0 = k <;> simp [set, get?, h, ih]

theorem get?_set_ne (d : Dict κ α) {k k' : κ} (v : α) (h : k ≠ k') :
    (d.set k v).get? k' = d.get? k' := by
  induction d with
  | nil => simp [set, get?, h]
  | cons p rest ih =>
      obtain ⟨k0, v0⟩ := p
      by_cases h0 : k0 = k
      · subst h0; simp [set, get?, h]
      · simp only [set, if_neg h0]
        by_cases h1 : k0 = k' <;> simp [get?, h1, ih]

theorem get?_erase_self (d : Dict κ α) (k : κ) :
    (d.erase k).get? k = none := by
  induction d with
  | nil => rfl
  | cons p rest ih =>
      obtain ⟨k0, v0⟩ := p
      simp only [erase] at ih ⊢
      by_cases h : k0 = k
      · simpa [List.filter_cons, h] using ih
      · simpa [List.filter_cons, h, get?] using ih

theorem get?_erase_ne (d : Dict κ α) {k k' : κ} (h : k ≠ k') :
    (d.erase k).get? k' = d.get? k' := by
  induction d with
  | nil => rfl
  | cons p rest ih =>
      obtain ⟨k0, v0⟩ := p
      simp only [erase] at ih ⊢
      by_cases h0 : k0 = k
      · simpa [List.filter_cons, h0, get?, h] using ih
      · by_cases h1 : k0 = k'
        · have h2 : ¬ k' = k := fun hq => h0 (h1.trans hq)
          simp [List.filter_cons, h0, get?, h1, h2]
        · simpa [List.filter_cons, h0, get?, h1] using ih

theorem hasKey_set (d : Dict κ α) (k k' : κ) (v : α) :
    (d.set k v).hasKey k' = (d.hasKey k' || k = k') := by
  by_cases h : k = k'
  · subst h; simp [hasKey, get?_set_self]
  · simp [hasKey, get?_set_ne d v h, h]

theorem get?_eq_some_mem {d : Dict κ α} {k : κ} {v : α}
    (h : d.get? k = some v) : (k, v) ∈ d := by
  induction d with
  | nil => simp [get?] at h
  | cons p rest ih =>
      obtain ⟨k0, v0⟩ := p
      by_cases h0 : k0 = k
      · subst h0
        have hv : v0 = v := by simpa [get?] using h
        subst hv
        exact List.mem_cons_self _ _
      · simp only [get?, if_neg h0] at h
        exact List.mem_cons_of_mem _ (ih h)

end Dict

/-! ## Python scalar values -/

/-- Exact rational numbers in lowest terms (positive denominator),
used to model finite CPython floats.  A hand-rolled type rather than
Mathlib's rationals so that every arithmetic step reduces inside the
kernel. -/
structure Q where
  num : Int
  den : Nat
deriving DecidableEq, Repr

/-- Normalising constructor: divide through by the gcd.  The zero
denominator case cannot arise from the parser's uses and is mapped to
zero for totality. -/
def mkQ (n : Int) (d : Nat) : Q :=
  if d = 0 then ⟨0, 1⟩
  else
    let g := Nat.gcd n.natAbs d
    ⟨Int.tdiv n (g : Int), d / g⟩

/-- Rational multiplication. -/
def Q.mul (a b : Q) : Q := mkQ (a.num * b.num) (a.den * b.den)

/-- Model of a CPython float: finite values are kept exactly as
rationals, and the special values are explicit. -/
inductive PyFloat where
  | fin (q : Q)
  | nan
  | inf
  | ninf
deriving DecidableEq, Repr

/-- Model of the values stored in the parser's `_data` structure:
`float` results, raw strings (for sentinel texts such as `N/A`), and
`None` (the densification filler). -/
inductive PyVal where
  | num (x : PyFloat)
  | str (s : String)
  | none
deriving DecidableEq, Repr

/-- Truth of `v == 0` for a stored value, as evaluated by CPython:
only the finite float zero equals the integer `0`; `nan`, infinities,
strings and `None` do not. -/
def valueIsZero : PyVal → Bool
  | .num (.fin q) => q.num = 0
  | _ => false

/-! ### `float(str)` and `int(str)` -/

/-- Digit test for the ASCII digits, as Python's `str.isdigit` over the
texts at hand. -/
def isPyDigit (c : Char) : Bool := '0' ≤ c && c ≤ '9'

/-- Whitespace class of Python's `\s` over ASCII inputs. -/
def isPySpace (c : Char) : Bool :=
  c = ' ' || c = '\t' || c = '\n' || c = '\r' || c = '\x0b' || c = '\x0c'

/-- Numeric value of a digit run. -/
def digitsVal (cs : List Char) : Nat :=
  cs.foldl (fun a c => a * 10 + (c.toNat - '0'.toNat)) 0

/-- Split a leading run of digits off a character list. -/
def spanDigits (cs : List Char) : List Char × List Char :=
  (cs.takeWhile isPyDigit, cs.dropWhile isPyDigit)

/-- Leading sign, giving the factor and the rest. -/
def spanSign : List Char → Int × List Char
  | '+' :: rest => (1, rest)
  | '-' :: rest => (-1, rest)
  | cs => (1, cs)

/-- Case-folded comparison helper for `inf`/`nan` spellings. -/
def lowerEq (cs : List Char) (s : String) : Bool :=
  cs.map Char.toLower = s.data

/-- Exact value of a signed decimal with integer digits `ip`, fraction
digits `fp` and decimal exponent `e`. -/
def decimalQ (sgn : Int) (ip fp : List Char) (e : Int) : Q :=
  let m : Int := sgn * ((digitsVal ip : Int) * 10 ^ fp.length + (digitsVal fp : Int))
  let den : Nat := 10 ^ fp.length
  if 0 ≤ e then mkQ (m * 10 ^ e.toNat) den
  else mkQ m (den * 10 ^ (-e).toNat)

/-- Parse the mantissa-and-exponent body of a Python float literal
(after sign): `digits[.digits][e[sign]digits]`, with at least one
mantissa digit.  Underscored literals are not produced by any of the
parser's regular expressions and are not modelled. -/
def parseFloatBody (sgn : Int) (cs : List Char) : Option Q :=
  let (ip, rest1) := spanDigits cs
  let (fp, restAfterFrac) :=
    match rest1 with
    | '.' :: r => spanDigits r
    | _ => ([], rest1)
  if ip.isEmpty && fp.isEmpty then none
  else
    match restAfterFrac with
    | [] => some (decimalQ sgn ip fp 0)
    | e :: r =>
        if e = 'e' || e = 'E' then
          let (es, r1) := spanSign r
          let (ed, r2) := spanDigits r1
          if ed.isEmpty || ¬ r2.isEmpty then none
          else some (decimalQ sgn ip fp (es * (digitsVal ed : Int)))
        else none

/-- Model of CPython `float(s)`: strip surrounding whitespace, optional
sign, then a decimal literal or a spelling of `inf`/`infinity`/`nan`
(case-insensitive).  Returns `none` where CPython raises `ValueError`. -/
def pyFloatOfString (s : String) : Option PyFloat :=
  let cs := (s.data.dropWhile isPySpace).reverse.dropWhile isPySpace |>.reverse
  let (sgn, body) := spanSign cs
  if lowerEq body "inf" || lowerEq body "infinity" then
    some (if sgn = 1 then .inf else .ninf)
  else if lowerEq body "nan" then
    some .nan
  else
    (parseFloatBody sgn body).map .fin

/-- Conversion applied by `_record_data` to each captured column text:
`float(...)` with a `ValueError` fallback to the raw string. -/
def pyValOf (s : String) : PyVal :=
  match pyFloatOfString s with
  | some f => .num f
  | Option.none => .str s

/-- Model of CPython `int(s)` restricted to unsigned decimal digit runs,
which is the only shape the parser feeds it (regex-captured `\d` runs
and date components). -/
def pyNat (s : String) : Option Nat :=
  if s.data ≠ [] && s.data.all isPyDigit then some (digitsVal s.data)
  else Option.none

/-- Split a character list at every occurrence of a separator, keeping
empty pieces — the behaviour of Python's `str.split` with an explicit
single-character separator.  (Defined on lists so that it reduces
inside the kernel.) -/
def splitOnCharAux (sep : Char) : List Char → List Char → List String
  | [], acc => [String.mk acc.reverse]
  | c :: rest, acc =>
      if c = sep then String.mk acc.reverse :: splitOnCharAux sep rest []
      else splitOnCharAux sep rest (c :: acc)

/-- String split on a single-character separator. -/
def splitOnChar (s : String) (sep : Char) : List String :=
  splitOnCharAux sep s.data []

/-- String prefix test (the behaviour of `str.startswith`), defined on
the character lists so that it reduces inside the kernel. -/
def strStartsWith (s p : String) : Bool :=
  p.data.isPrefixOf s.data

/-! ## Datetime model -/

/-- Model of `datetime.datetime` at second granularity (the parser never
produces sub-second instants). -/
structure Datetime where
  year : Nat
  month : Nat
  day : Nat
  hour : Nat
  minute : Nat
  second : Nat
deriving DecidableEq, Repr

/-- Gregorian leap-year rule. -/
def isLeap (y : Nat) : Bool := y % 4 = 0 && (y % 100 ≠ 0 || y % 400 = 0)

/-- Length of a month, as `calendar`/`datetime` use. -/
def daysInMonth (y m : Nat) : Nat :=
  if m = 2 then (if isLeap y then 29 else 28)
  else if m = 4 || m = 6 || m = 9 || m = 11 then 30
  else 31

/-- Construct a `datetime.datetime`, validating the field ranges exactly
as the CPython constructor does (`ValueError` becomes `none`). -/
def mkDatetime (y m d h mi s : Nat) : Option Datetime :=
  if 1 ≤ y && y ≤ 9999 && 1 ≤ m && m ≤ 12 && 1 ≤ d && d ≤ daysInMonth y m
      && h ≤ 23 && mi ≤ 59 && s ≤ 59 then
    some ⟨y, m, d, h, mi, s⟩
  else none

namespace Datetime

/-- Strict comparison of datetimes: field-lexicographic, which is how
CPython compares `datetime` values. -/
def blt (a b : Datetime) : Bool :=
  if a.year ≠ b.year then a.year < b.year
  else if a.month ≠ b.month then a.month < b.month
  else if a.day ≠ b.day then a.day < b.day
  else if a.hour ≠ b.hour then a.hour < b.hour
  else if a.minute ≠ b.minute then a.minute < b.minute
  else a.second < b.second

/-- Non-strict comparison of datetimes. -/
def ble (a b : Datetime) : Bool := a.blt b || a == b

/-- Calendar successor of a (year, month, day) triple. -/
def nextDay (y m d : Nat) : Nat × Nat × Nat :=
  if d < daysInMonth y m then (y, m, d + 1)
  else if m < 12 then (y, m + 1, 1)
  else (y + 1, 1, 1)

/-- Model of `t + datetime.timedelta(days=1)` on whole-second instants:
the calendar day advances, the time of day is unchanged. -/
def addOneDay (t : Datetime) : Datetime :=
  let (y, m, d) := nextDay t.year t.month t.day
  { t with year := y, month := m, day := d }

/-- Day number of a civil date (days since 0000-03-01), the standard
civil-from-days algorithm specialised to the positive years that
`datetime` admits. -/
def civilDays (y m d : Nat) : Nat :=
  let y' := if m ≤ 2 then y - 1 else y
  let era := y' / 400
  let yoe := y' % 400
  let mp := if 2 < m then m - 3 else m + 9
  let doy := (153 * mp + 2) / 5 + (d - 1)
  let doe := yoe * 365 + yoe / 4 - yoe / 100 + doy
  era * 146097 + doe

/-- Absolute second count of an instant; differences of these model
`(a - b).total_seconds()`. -/
def toSecs (t : Datetime) : Nat :=
  civilDays t.year t.month t.day * 86400
    + t.hour * 3600 + t.minute * 60 + t.second

end Datetime

/-! ## Regular-expression syntax and backtracking matcher -/

/-- Syntax of the regular expressions used by the parser, transcribed
one-to-one from the source pattern texts: character classes, literals,
concatenation, ordered alternation, greedy bounded repetition, numbered
capturing groups and the end anchor. -/
inductive RE where
  | eps : RE
  | cls (p : Char → Bool) : RE
  | lit (l : List Char) : RE
  | seq (a b : RE) : RE
  | alt (a b : RE) : RE
  | rep (a : RE) (lo : Nat) (hi : Option Nat) : RE
  | grp (n : Nat) (a : RE) : RE
  | eol : RE

/-- Captured groups of a match, numbered as in the source pattern. -/
abbrev Caps := Dict Nat String

/-- Structural size of a pattern, used for the fuel bound. -/
def RE.size : RE → Nat
  | .eps => 1
  | .cls _ => 1
  | .lit _ => 1
  | .seq a b => a.size + b.size + 1
  | .alt a b => a.size + b.size + 1
  | .rep a _ _ => a.size + 1
  | .grp _ a => a.size + 1
  | .eol => 1

/-- Backtracking matcher in continuation style, with Python's ordered
alternation and greedy repetition.  The fuel bounds the recursion depth
(one unit per call); backtracking alternatives are explored
sequentially, so the depth along any exploration is at most the number
of pattern nodes traversed by one parse trace, which for the patterns
at hand (whose repetition bodies always consume at least one
character) is below `(length + 2) * (size + 2)` — the bound the entry
points supply — hence the fuel is never exhausted on them. -/
def matchRE : Nat → RE → List Char → Caps → (Caps → List Char → Option Caps) → Option Caps
  | 0, _, _, _, _ => none
  | fuel + 1, re, cs, caps, k =>
    match re with
    | .eps => k caps cs
    | .cls p =>
        match cs with
        | [] => none
        | c :: rest => if p c then k caps rest else none
    | .lit l => if l.isPrefixOf cs then k caps (cs.drop l.length) else none
    | .seq a b => matchRE fuel a cs caps (fun caps' cs' => matchRE fuel b cs' caps' k)
    | .alt a b =>
        (matchRE fuel a cs caps k).orElse (fun _ => matchRE fuel b cs caps k)
    | .rep a lo hi =>
        if hi = some 0 then k caps cs
        else
          let more := matchRE fuel a cs caps (fun caps' cs' =>
            matchRE fuel (.rep a (lo - 1) (hi.map (· - 1))) cs' caps' k)
          if lo = 0 then more.orElse (fun _ => k caps cs) else more
    | .grp n a =>
        matchRE fuel a cs caps (fun caps' cs' =>
          k (caps'.set n (String.mk (cs.take (cs.length - cs'.length)))) cs')
    | .eol =>
        match cs with
        | [] => k caps []
        | _ => none

/-- Fuel supplied to the matcher; ample for the patterns at hand, as
argued at `matchRE`. -/
def reFuel (re : RE) (s : String) : Nat := (s.length + 2) * (re.size + 2)

/-- Model of `re.search` with a `^`-anchored pattern (equivalently
`re.match`): attempt the pattern at the start of the text only. -/
def reMatch (re : RE) (s : String) : Option Caps :=
  matchRE (reFuel re s) re s.data [] (fun caps _ => some caps)

/-- Leftmost search loop over the suffixes of the subject. -/
def searchFrom (fuel : Nat) (re : RE) : List Char → Option Caps
  | [] => matchRE fuel re [] [] (fun caps _ => some caps)
  | c :: rest =>
      (matchRE fuel re (c :: rest) [] (fun caps _ => some caps)).orElse
        (fun _ => searchFrom fuel re rest)

/-- Model of `re.search` with an unanchored pattern: leftmost match. -/
def reSearch (re : RE) (s : String) : Option Caps :=
  searchFrom (reFuel re s) re s.data

/-- Value of `match.group(n)`: the last text captured by group `n`, or
`None` when the group did not take part in the match. -/
def capGet (caps : Caps) (n : Nat) : Option String := caps.get? n

/-- Concatenation of a pattern list. -/
def cats (l : List RE) : RE := l.foldr RE.seq RE.eps

/-! ## Transcribed patterns and the metadata catalog -/

/-- Literal pattern from a string. -/
def strLit (s : String) : RE := .lit s.data

/-- Single digit (the `\d` class over ASCII input). -/
def digitRE : RE := .cls isPyDigit

/-- Exactly `n` digits. -/
def digitsN (n : Nat) : RE := .rep digitRE n (some n)

/-- One or more digits (`\d+`). -/
def digits1 : RE := .rep digitRE 1 none

/-- Whitespace run `\s*`. -/
def ws0 : RE := .rep (.cls isPySpace) 0 none

/-- Whitespace run `\s+`. -/
def ws1 : RE := .rep (.cls isPySpace) 1 none

/-- Optional sign `[+-]?`. -/
def signOpt : RE := .rep (.cls fun c => c = '+' || c = '-') 0 (some 1)

/-- Timestamp shape of sar_metadata (`TIMESTAMP_RE`, group-free):
two-digit hour, minute and second fields with an optional
whitespace-plus-meridiem suffix. -/
def tsMetaRE : RE :=
  cats [digitsN 2, strLit ":", digitsN 2, strLit ":", digitsN 2,
    .rep (.alt (.seq (.cls isPySpace) (strLit "AM"))
               (.seq (.cls isPySpace) (strLit "PM"))) 0 (some 1)]

/-- Timestamp pattern of sar_parser (`TIMESTAMP_RE` with capture groups
for hours, minutes, seconds and the meridiem). -/
def tsParserRE : RE :=
  cats [.grp 1 (digitsN 2), strLit ":", .grp 2 (digitsN 2), strLit ":",
    .grp 3 (digitsN 2), .rep (.cls isPySpace) 0 (some 1),
    .rep (.grp 4 (.alt (strLit "AM") (strLit "PM"))) 0 (some 1)]

/-- Metadata building block `INTEGER_RE`. -/
def integerRE : RE := .seq signOpt digits1

/-- Metadata building block `HEX_RE`. -/
def hexRE : RE :=
  .rep (.cls fun c => isPyDigit c || ('a' ≤ c && c ≤ 'f') || ('A' ≤ c && c ≤ 'F')) 1 none

/-- Metadata building block `NUMBER_WITH_DEC_RE`: a signed decimal with
a mandatory fraction part, or the literal `nan`. -/
def numberWithDecRE : RE :=
  .alt (cats [signOpt, digits1, strLit ".", digits1]) (strLit "nan")

/-- Metadata building block `INTERFACE_NAME_RE`: anything without
blanks or tabs. -/
def interfaceNameRE : RE := .rep (.cls fun c => !(c = ' ' || c = '\t')) 1 none

/-- Metadata building block `USB_NAME_RE`: anything without tabs. -/
def usbNameRE : RE := .rep (.cls fun c => !(c = '\t')) 1 none

/-- Metadata building block `FS_NAME_RE` (same text as `USB_NAME_RE`). -/
def fsNameRE : RE := .rep (.cls fun c => !(c = '\t')) 1 none

/-- Metadata building block `DEVICE_NAME_RE` (alias of
`INTERFACE_NAME_RE`). -/
def deviceNameRE : RE := interfaceNameRE

/-- Metadata building block `INTERRUPTS_RE`. -/
def interruptsRE : RE := .alt numberWithDecRE (strLit "N/A")

/-- Metadata building block `CPU_RE`. -/
def cpuRE : RE := .alt (strLit "all") digits1

/-- Metadata building block `INT_RE`. -/
def intRE : RE := .alt (strLit "sum") digits1

/-- Catalog entry: the category and value pattern of a counter name.
Labels, units and description texts of the source table are never
consulted by the parser and are omitted. -/
structure CatalogEntry where
  cat : String
  regexp : RE

/-- Catalog entry helper. -/
def bg (n c : String) (r : RE) : String × CatalogEntry := (n, ⟨c, r⟩)

/-- Part 0 of the `BASE_GRAPHS` table (split only to keep elaboration cheap; source order preserved). -/
def baseGraphsPart0 : List (String × CatalogEntry) := [
  bg "%user" "Utilization" numberWithDecRE,
  bg "%usr" "Utilization" numberWithDecRE,
  bg "%system" "Utilization" numberWithDecRE,
  bg "%sys" "Utilization" numberWithDecRE,
  bg "%iowait" "Utilization" numberWithDecRE,
  bg "%irq" "Utilization" numberWithDecRE,
  bg "%soft" "Utilization" numberWithDecRE,
  bg "%nice" "Utilization" numberWithDecRE,
  bg "%gnice" "Utilization" numberWithDecRE,
  bg "%idle" "Utilization" numberWithDecRE,
  bg "%steal" "Utilization" numberWithDecRE,
  bg "%guest" "Utilization" numberWithDecRE,
  bg "%scpu-10" "Utilization" numberWithDecRE,
  bg "%scpu-60" "Utilization" numberWithDecRE,
  bg "%scpu-300" "Utilization" numberWithDecRE,
  bg "%scpu" "Utilization" numberWithDecRE,
  bg "runq-sz" "Load" integerRE,
  bg "plist-sz" "Load" integerRE,
  bg "ldavg-1" "Load" numberWithDecRE,
  bg "ldavg-5" "Load" numberWithDecRE,
  bg "ldavg-15" "Load" numberWithDecRE,
  bg "blocked" "Load" integerRE,
  bg "proc/s" "Load" numberWithDecRE,
  bg "cswch/s" "Load" numberWithDecRE,
  bg "kbmemfree" "Memory" integerRE,
  bg "kbmemused" "Memory" integerRE,
  bg "%memused" "Memory" numberWithDecRE,
  bg "kbbuffers" "Memory" integerRE,
  bg "kbcached" "Memory" integerRE,
  bg "kbcommit" "Memory" integerRE,
  bg "%commit" "Memory" numberWithDecRE,
  bg "kbactive" "Memory" integerRE,
  bg "kbinact" "Memory" integerRE,
  bg "kbdirty" "Memory" integerRE,
  bg "kbshmem" "Memory" integerRE,
  bg "kbanonpg" "Memory" integerRE,
  bg "kbslab" "Memory" integerRE,
  bg "kbavail" "Memory" integerRE,
  bg "kbkstack" "Memory" integerRE,
  bg "kbpgtbl" "Memory" integerRE,
  bg "kbvmused" "Memory" integerRE,
  bg "kbhugfree" "Memory" integerRE,
  bg "kbhugused" "Memory" integerRE,
  bg "kbhugrsvd" "Memory" integerRE,
  bg "kbhugsurp" "Memory" integerRE,
  bg "%hugused" "Memory" numberWithDecRE,
  bg "frmpg/s" "Memory" numberWithDecRE,
  bg "bufpg/s" "Memory" numberWithDecRE,
  bg "campg/s" "Memory" numberWithDecRE,
  bg "%smem-10" "Memory" numberWithDecRE
]

/-- Part 1 of the `BASE_GRAPHS` table (split only to keep elaboration cheap; source order preserved). -/
def baseGraphsPart1 : List (String × CatalogEntry) := [
  bg "%smem-60" "Memory" numberWithDecRE,
  bg "%smem-300" "Memory" numberWithDecRE,
  bg "%smem" "Memory" numberWithDecRE,
  bg "%fmem-10" "Memory" numberWithDecRE,
  bg "%fmem-60" "Memory" numberWithDecRE,
  bg "%fmem-300" "Memory" numberWithDecRE,
  bg "%fmem" "Memory" numberWithDecRE,
  bg "pswpin/s" "Swap" numberWithDecRE,
  bg "pswpout/s" "Swap" numberWithDecRE,
  bg "kbswpfree" "Swap" integerRE,
  bg "kbswpused" "Swap" integerRE,
  bg "%swpused" "Swap" numberWithDecRE,
  bg "kbswpcad" "Swap" integerRE,
  bg "%swpcad" "Swap" numberWithDecRE,
  bg "nswap/s" "Swap" numberWithDecRE,
  bg "rtps" "I/O" numberWithDecRE,
  bg "wtps" "I/O" numberWithDecRE,
  bg "dtps" "I/O" numberWithDecRE,
  bg "bread/s" "I/O" numberWithDecRE,
  bg "bwrtn/s" "I/O" numberWithDecRE,
  bg "bdscd/s" "I/O" numberWithDecRE,
  bg "rxkB/s" "I/O" numberWithDecRE,
  bg "txkB/s" "I/O" numberWithDecRE,
  bg "tps" "I/O" numberWithDecRE,
  bg "rd_sec/s" "I/O" numberWithDecRE,
  bg "wr_sec/s" "I/O" numberWithDecRE,
  bg "avgrq-sz" "I/O" numberWithDecRE,
  bg "avgqu-sz" "I/O" numberWithDecRE,
  bg "await" "I/O" numberWithDecRE,
  bg "svctm" "I/O" numberWithDecRE,
  bg "%util" "I/O" numberWithDecRE,
  bg "%sio-10" "I/O" numberWithDecRE,
  bg "%sio-60" "I/O" numberWithDecRE,
  bg "%sio-300" "I/O" numberWithDecRE,
  bg "%sio" "I/O" numberWithDecRE,
  bg "%fio-10" "I/O" numberWithDecRE,
  bg "%fio-60" "I/O" numberWithDecRE,
  bg "%fio-300" "I/O" numberWithDecRE,
  bg "%fio" "I/O" numberWithDecRE,
  bg "maxpower" "Power" integerRE,
  bg "MHz" "Power" integerRE,
  bg "FAN" "Power" integerRE,
  bg "%temp" "Power" numberWithDecRE,
  bg "degC" "Power" numberWithDecRE,
  bg "drpm" "Power" numberWithDecRE,
  bg "rpm" "Power" numberWithDecRE,
  bg "pgpgin/s" "Paging" numberWithDecRE,
  bg "pgpgout/s" "Paging" numberWithDecRE,
  bg "fault/s" "Paging" numberWithDecRE,
  bg "majflt/s" "Paging" numberWithDecRE
]

/-- Part 2 of the `BASE_GRAPHS` table (split only to keep elaboration cheap; source order preserved). -/
def baseGraphsPart2 : List (String × CatalogEntry) := [
  bg "minflt/s" "Paging" numberWithDecRE,
  bg "pgfree/s" "Paging" numberWithDecRE,
  bg "pgscank/s" "Paging" numberWithDecRE,
  bg "pgscand/s" "Paging" numberWithDecRE,
  bg "pgsteal/s" "Paging" numberWithDecRE,
  bg "pgprom/s" "Paging" numberWithDecRE,
  bg "pgdem/s" "Paging" numberWithDecRE,
  bg "%vmeff" "Paging" numberWithDecRE,
  bg "file-nr" "Files" integerRE,
  bg "inode-nr" "Files" integerRE,
  bg "file-sz" "Files" integerRE,
  bg "inode-sz" "Files" integerRE,
  bg "super-sz" "Files" integerRE,
  bg "%super-sz" "Files" numberWithDecRE,
  bg "dquot-sz" "Files" integerRE,
  bg "%dquot-sz" "Files" numberWithDecRE,
  bg "dentunusd" "Files" integerRE,
  bg "MBfsfree" "Files" integerRE,
  bg "MBfsused" "Files" integerRE,
  bg "%fsused" "Files" numberWithDecRE,
  bg "%ufsused" "Files" numberWithDecRE,
  bg "Ifree" "Files" integerRE,
  bg "Iused" "Files" integerRE,
  bg "%Iused" "Files" numberWithDecRE,
  bg "rtsig-sz" "Other" integerRE,
  bg "%rtsig-sz" "Other" numberWithDecRE,
  bg "pty-nr" "Other" integerRE,
  bg "call/s" "NFS" numberWithDecRE,
  bg "retrans/s" "NFS" numberWithDecRE,
  bg "read/s" "NFS" numberWithDecRE,
  bg "write/s" "NFS" numberWithDecRE,
  bg "access/s" "NFS" numberWithDecRE,
  bg "getatt/s" "NFS" numberWithDecRE,
  bg "scall/s" "NFSD" numberWithDecRE,
  bg "badcall/s" "NFSD" numberWithDecRE,
  bg "packet/s" "NFSD" numberWithDecRE,
  bg "udp/s" "NFSD" numberWithDecRE,
  bg "tcp/s" "NFSD" numberWithDecRE,
  bg "hit/s" "NFSD" numberWithDecRE,
  bg "miss/s" "NFSD" numberWithDecRE,
  bg "sread/s" "NFSD" numberWithDecRE,
  bg "swrite/s" "NFSD" numberWithDecRE,
  bg "saccess/s" "NFSD" numberWithDecRE,
  bg "sgetatt/s" "NFSD" numberWithDecRE,
  bg "rcvin/s" "TTY" numberWithDecRE,
  bg "txmtin/s" "TTY" numberWithDecRE,
  bg "xmtin/s" "TTY" numberWithDecRE,
  bg "framerr/s" "TTY" numberWithDecRE,
  bg "prtyerr/s" "TTY" numberWithDecRE,
  bg "brk/s" "TTY" numberWithDecRE
]

/-- Part 3 of the `BASE_GRAPHS` table (split only to keep elaboration cheap; source order preserved). -/
def baseGraphsPart3 : List (String × CatalogEntry) := [
  bg "ovrun/s" "TTY" numberWithDecRE,
  bg "totsck" "Network" integerRE,
  bg "tcpsck" "Network" integerRE,
  bg "udpsck" "Network" integerRE,
  bg "rawsck" "Network" integerRE,
  bg "ip-frag" "Network" integerRE,
  bg "tcp-tw" "Network" integerRE,
  bg "rxpck/s" "Network" numberWithDecRE,
  bg "txpck/s" "Network" numberWithDecRE,
  bg "rxbyt/s" "Network" numberWithDecRE,
  bg "txbyt/s" "Network" numberWithDecRE,
  bg "rxcmp/s" "Network" numberWithDecRE,
  bg "txcmp/s" "Network" numberWithDecRE,
  bg "rxmcst/s" "Network" numberWithDecRE,
  bg "%ifutil" "Network" numberWithDecRE,
  bg "rxerr/s" "Network" numberWithDecRE,
  bg "txerr/s" "Network" numberWithDecRE,
  bg "coll/s" "Network" numberWithDecRE,
  bg "rxdrop/s" "Network" numberWithDecRE,
  bg "txdrop/s" "Network" numberWithDecRE,
  bg "txcarr/s" "Network" numberWithDecRE,
  bg "rxfram/s" "Network" numberWithDecRE,
  bg "rxfifo/s" "Network" numberWithDecRE,
  bg "txfifo/s" "Network" numberWithDecRE,
  bg "irec/s" "Network" numberWithDecRE,
  bg "fwddgm/s" "Network" numberWithDecRE,
  bg "idel/s" "Network" numberWithDecRE,
  bg "orq/s" "Network" numberWithDecRE,
  bg "asmrq/s" "Network" numberWithDecRE,
  bg "asmok/s" "Network" numberWithDecRE,
  bg "fragok/s" "Network" numberWithDecRE,
  bg "fragcrt/s" "Network" numberWithDecRE,
  bg "ihdrerr/s" "Network" numberWithDecRE,
  bg "iadrerr/s" "Network" numberWithDecRE,
  bg "iukwnpr/s" "Network" numberWithDecRE,
  bg "idisc/s" "Network" numberWithDecRE,
  bg "odisc/s" "Network" numberWithDecRE,
  bg "onort/s" "Network" numberWithDecRE,
  bg "asmf/s" "Network" numberWithDecRE,
  bg "fragf/s" "Network" numberWithDecRE,
  bg "imsg/s" "Network" numberWithDecRE,
  bg "omsg/s" "Network" numberWithDecRE,
  bg "iech/s" "Network" numberWithDecRE,
  bg "iechr/s" "Network" numberWithDecRE,
  bg "oech/s" "Network" numberWithDecRE,
  bg "oechr/s" "Network" numberWithDecRE,
  bg "itm/s" "Network" numberWithDecRE,
  bg "itmr/s" "Network" numberWithDecRE,
  bg "otm/s" "Network" numberWithDecRE,
  bg "otmr/s" "Network" numberWithDecRE
]

/-- Part 4 of the `BASE_GRAPHS` table (split only to keep elaboration cheap; source order preserved). -/
def baseGraphsPart4 : List (String × CatalogEntry) := [
  bg "iadrmk/s" "Network" numberWithDecRE,
  bg "iadrmkr/s" "Network" numberWithDecRE,
  bg "oadrmk/s" "Network" numberWithDecRE,
  bg "oadrmkr/s" "Network" numberWithDecRE,
  bg "ierr/s" "Network" numberWithDecRE,
  bg "oerr/s" "Network" numberWithDecRE,
  bg "idstunr/s" "Network" numberWithDecRE,
  bg "odstunr/s" "Network" numberWithDecRE,
  bg "itmex/s" "Network" numberWithDecRE,
  bg "otmex/s" "Network" numberWithDecRE,
  bg "iparmpb/s" "Network" numberWithDecRE,
  bg "oparmpb/s" "Network" numberWithDecRE,
  bg "isrcq/s" "Network" numberWithDecRE,
  bg "osrcq/s" "Network" numberWithDecRE,
  bg "iredir/s" "Network" numberWithDecRE,
  bg "oredir/s" "Network" numberWithDecRE,
  bg "blg_len" "Network" integerRE,
  bg "active/s" "Network" numberWithDecRE,
  bg "passive/s" "Network" numberWithDecRE,
  bg "iseg/s" "Network" numberWithDecRE,
  bg "oseg/s" "Network" numberWithDecRE,
  bg "atmptf/s" "Network" numberWithDecRE,
  bg "estres/s" "Network" numberWithDecRE,
  bg "retrant/s" "Network" numberWithDecRE,
  bg "isegerr/s" "Network" numberWithDecRE,
  bg "orsts/s" "Network" numberWithDecRE,
  bg "idgm/s" "Network" numberWithDecRE,
  bg "odgm/s" "Network" numberWithDecRE,
  bg "noport/s" "Network" numberWithDecRE,
  bg "idgmerr/s" "Network" numberWithDecRE,
  bg "tcp6sck" "Network" integerRE,
  bg "udp6sck" "Network" integerRE,
  bg "raw6sck" "Network" integerRE,
  bg "ip6-frag" "Network" integerRE,
  bg "irec6/s" "Network" numberWithDecRE,
  bg "fwddgm6/s" "Network" numberWithDecRE,
  bg "idel6/s" "Network" numberWithDecRE,
  bg "orq6/s" "Network" numberWithDecRE,
  bg "asmrq6/s" "Network" numberWithDecRE,
  bg "asmok6/s" "Network" numberWithDecRE,
  bg "imcpck6/s" "Network" numberWithDecRE,
  bg "omcpck6/s" "Network" numberWithDecRE,
  bg "fragok6/s" "Network" numberWithDecRE,
  bg "fragcr6/s" "Network" numberWithDecRE,
  bg "ihdrer6/s" "Network" numberWithDecRE,
  bg "iadrer6/s" "Network" numberWithDecRE,
  bg "iukwnp6/s" "Network" numberWithDecRE,
  bg "i2big6/s" "Network" numberWithDecRE,
  bg "idisc6/s" "Network" numberWithDecRE,
  bg "odisc6/s" "Network" numberWithDecRE
]

/-- Part 5 of the `BASE_GRAPHS` table (split only to keep elaboration cheap; source order preserved). -/
def baseGraphsPart5 : List (String × CatalogEntry) := [
  bg "inort6/s" "Network" numberWithDecRE,
  bg "onort6/s" "Network" numberWithDecRE,
  bg "asmf6/s" "Network" numberWithDecRE,
  bg "fragf6/s" "Network" numberWithDecRE,
  bg "itrpck6/s" "Network" numberWithDecRE,
  bg "imsg6/s" "Network" numberWithDecRE,
  bg "omsg6/s" "Network" numberWithDecRE,
  bg "iech6/s" "Network" numberWithDecRE,
  bg "iechr6/s" "Network" numberWithDecRE,
  bg "oechr6/s" "Network" numberWithDecRE,
  bg "igmbq6/s" "Network" numberWithDecRE,
  bg "igmbr6/s" "Network" numberWithDecRE,
  bg "ogmbr6/s" "Network" numberWithDecRE,
  bg "igmbrd6/s" "Network" numberWithDecRE,
  bg "ogmbrd6/s" "Network" numberWithDecRE,
  bg "irtsol6/s" "Network" numberWithDecRE,
  bg "ortsol6/s" "Network" numberWithDecRE,
  bg "irtad6/s" "Network" numberWithDecRE,
  bg "inbsol6/s" "Network" numberWithDecRE,
  bg "onbsol6/s" "Network" numberWithDecRE,
  bg "inbad6/s" "Network" numberWithDecRE,
  bg "onbad6/s" "Network" numberWithDecRE,
  bg "ierr6/s" "Network" numberWithDecRE,
  bg "idtunr6/s" "Network" numberWithDecRE,
  bg "odtunr6/s" "Network" numberWithDecRE,
  bg "itmex6/s" "Network" numberWithDecRE,
  bg "otmex6/s" "Network" numberWithDecRE,
  bg "iprmpb6/s" "Network" numberWithDecRE,
  bg "oprmpb6/s" "Network" numberWithDecRE,
  bg "iredir6/s" "Network" numberWithDecRE,
  bg "oredir6/s" "Network" numberWithDecRE,
  bg "ipck2b6/s" "Network" numberWithDecRE,
  bg "opck2b6/s" "Network" numberWithDecRE,
  bg "idgm6/s" "Network" numberWithDecRE,
  bg "odgm6/s" "Network" numberWithDecRE,
  bg "noport6/s" "Network" numberWithDecRE,
  bg "idgmer6/s" "Network" numberWithDecRE,
  bg "total/s" "Network" numberWithDecRE,
  bg "dropd/s" "Network" numberWithDecRE,
  bg "squeezd/s" "Network" numberWithDecRE,
  bg "rx_rps/s" "Network" numberWithDecRE,
  bg "flw_lim/s" "Network" numberWithDecRE,
  bg "intr/s" "Interrupts" numberWithDecRE,
  bg "rkB/s" "Disk" numberWithDecRE,
  bg "wkB/s" "Disk" numberWithDecRE,
  bg "dkB/s" "Disk" numberWithDecRE,
  bg "areq-sz" "Disk" numberWithDecRE,
  bg "aqu-sz" "Disk" numberWithDecRE
]

/-- The `BASE_GRAPHS` catalog: every entry of the source table carries
both a `cat` and a `regexp` field (the latter is always `INTEGER_RE` or
`NUMBER_WITH_DEC_RE`), so the `"regexp" in BASE_GRAPHS[name]` guard of
`get_regexp` is always true for present names and is not represented
separately. -/
def baseGraphs : List (String × CatalogEntry) :=
  baseGraphsPart0 ++ baseGraphsPart1 ++ baseGraphsPart2 ++ baseGraphsPart3 ++ baseGraphsPart4 ++ baseGraphsPart5

/-- Catalog lookup by exact name. -/
def baseGraphsFind (name : String) : Option CatalogEntry :=
  (baseGraphs.find? (fun p => p.1 = name)).map Prod.snd

/-- The `_SPECIAL_REGEXPS` table of structural column names. -/
def specialRegexps : List (String × RE) :=
  [("IFACE", interfaceNameRE), ("DEV", deviceNameRE), ("CPU", cpuRE),
   ("INTR", intRE), ("iNNN/s", interruptsRE), ("BUS", integerRE),
   ("FAN", integerRE), ("DEVICE", interfaceNameRE), ("TEMP", integerRE),
   ("TTY", integerRE), ("idvendor", hexRE), ("idprod", hexRE),
   ("manufact", usbNameRE), ("product", usbNameRE),
   ("MHz", numberWithDecRE), ("FILESYSTEM", fsNameRE)]

/-- The `INDEX_COLUMN` set: column titles that key a "3D" table. -/
def INDEX_COLUMN : List String :=
  ["CPU", "IFACE", "DEV", "INTR", "FAN", "TEMP", "BUS", "FILESYSTEM", "TTY"]

/-- The `_CATEGORY_PREFIXES` table, in source order. -/
def categoryPrefixList : List (String × String) :=
  [("CPU#", "Load"), ("FILESYSTEM#", "Files"), ("DEV#", "I/O"),
   ("TTY", "TTY"), ("IFACE", "Network"), ("TEMP#", "Power"),
   ("FAN#", "Power"), ("INTR#", "Intr")]

/-- Fallback pattern `i[0-9]*/s` for numbered interrupt counters,
applied with `re.match` (prefix, unanchored at the end). -/
def iFallbackRE : RE := cats [strLit "i", .rep digitRE 0 none, strLit "/s"]

/-- Model of `sar_metadata.get_regexp`: structural names first, then the
catalog, then the numbered-interrupt fallback; otherwise the
`ValueError` message carrying the unrecognised name. -/
def getRegexp (name : String) : Except String RE :=
  match (specialRegexps.find? (fun p => p.1 = name)).map Prod.snd with
  | some r => .ok r
  | none =>
      match baseGraphsFind name with
      | some e => .ok e.regexp
      | none =>
          if (reMatch iFallbackRE name).isSome then .ok interruptsRE
          else .error ("regexp for " ++ name ++ " could not be found")

/-- Model of `sar_metadata.get_category`: composite-name prefixes first,
then the catalog, then the permissive default. -/
def getCategory (name : String) : String :=
  match categoryPrefixList.find? (fun pc => strStartsWith name pc.1) with
  | some pc => pc.2
  | none =>
      match baseGraphsFind name with
      | some e => e.cat
      | none => "Interrupts"

/-! ## Line classifier patterns of sar_parser -/

/-- Pattern of `_empty_line`. -/
def emptyLineRE : RE := .seq ws0 .eol

/-- Predicate `_empty_line`. -/
def emptyLine (line : String) : Bool := (reMatch emptyLineRE line).isSome

/-- Pattern of `_average_line`: both alternatives of the source pattern
are start-anchored, so the search is a start match. -/
def averageLineRE : RE := .alt (strLit "Average") (strLit "Summary")

/-- Predicate `_average_line`. -/
def averageLine (line : String) : Bool := (reMatch averageLineRE line).isSome

/-- One column-header token of `_column_headers`: the digit-free
character class or one of the explicitly allowed digit-bearing names,
in source order. -/
def headerTokenRE : RE :=
  .alt (.rep (.cls fun c => c.isAlpha || c = '6' || c = '%' || c = '/' || c = '_' || c = '-') 1 none)
    (.alt (cats [strLit "i", digitsN 3, strLit "/s"])
      (.alt (strLit "i2big6/s")
        (.alt (strLit "ipck2b6/s")
          (.alt (strLit "opck2b6/s") (cats [strLit "ldavg-", digits1])))))

/-- Full column-header pattern of `_column_headers`. -/
def colHeadersRE : RE :=
  cats [.grp 1 tsMetaRE, ws1, .grp 2 (.rep (.seq headerTokenRE ws0) 1 none),
    ws0, .eol]

/-- Model of `_column_headers`: the captured timestamp text and the
header tokens (group 2 split on single blanks, empty pieces dropped). -/
def columnHeaders (line : String) : Option String × Option (List String) :=
  match reMatch colHeadersRE line with
  | some caps =>
      match capGet caps 1, capGet caps 2 with
      | some t, some h => (some t, some ((splitOnChar h ' ').filter (fun s => s ≠ "")))
      | _, _ => (none, none)
  | none => (none, none)

/-- Non-whitespace run `\S+`. -/
def nonSpace1 : RE := .rep (.cls fun c => !(isPySpace c)) 1 none

/-- Pattern `.*` (no DOTALL: anything but a newline). -/
def dotStar : RE := .rep (.cls fun c => c ≠ '\n') 0 none

/-- Date alternative of the first-line pattern: `YYYY-MM-DD` or
`MM/DD/(YY)YY`. -/
def firstLineDateRE : RE :=
  .alt (cats [digitsN 4, strLit "-", digitsN 2, strLit "-", digitsN 2])
       (cats [digitsN 2, strLit "/", digitsN 2, strLit "/", .rep digitRE 2 (some 4)])

/-- Preamble pattern of `_parse_first_line`: kernel name, kernel
release, parenthesised hostname, date, ignored remainder. -/
def firstLineRE : RE :=
  cats [.grp 1 nonSpace1, ws1, .grp 2 nonSpace1, ws1, strLit "(",
    .grp 3 nonSpace1, strLit ")", ws1, .grp 4 firstLineDateRE, dotStar, .eol]

/-- Second pattern of `_parse_first_line`, re-parsing the date text as
`MM/DD/(YY)YY` (an unanchored search). -/
def mmddRE : RE :=
  cats [.grp 1 (digitsN 2), strLit "/", .grp 2 (digitsN 2), strLit "/",
    .grp 3 (.rep digitRE 2 (some 4))]

/-! ## Parser state, recording, state machine -/

/-- Fatal parse failures (the exceptions the source raises), carrying
the same diagnostic data as the source messages. -/
inductive PErr where
  | canonFailed (ts : String)
  | badDatetime (y m d h mi s : Nat)
  | badInt (s : String)
  | noDate
  | missingGroup (n : Nat)
  | timeBackwards (t p : Datetime) (lc : Nat)
  | firstLineFailed (lc : Nat) (line : String)
  | expectedEmpty (lc : Nat) (line : String)
  | expectedHeader (lc : Nat) (line : String)
  | unknownColumn (lc : Nat) (hdr : String)
  | rowMismatch (lc : Nat) (line : String)
  | expectedTableEnd (lc : Nat) (line : String)
deriving DecidableEq, Repr

/-- States of the line-oriented parsing state machine. -/
inductive MState where
  | start
  | afterFirstLine
  | afterEmptyLine
  | skipUntilEot
  | tableStart
  | tableRow
  | tableEnd
deriving DecidableEq, Repr

/-- Caller configuration: the optional start/end time window and the
table skip list (default `BUS`). -/
structure Config where
  starttime : Option Datetime := none
  endtime : Option Datetime := none
  skipTables : List String := ["BUS"]

/-- The `SarParser` mutable state.  `prev` models `_prev_timestamp`,
whose Python value is `None`, `False` or a datetime; only its truth
value is ever consulted, so the two falsy variants collapse to `none`. -/
structure PState where
  machine : MState := .start
  headers : List String := []
  pattern : RE := .eps
  date : Option (Nat × Nat × Nat) := none
  olddate : Option (Nat × Nat × Nat) := none
  prev : Option Datetime := none
  data : Dict Datetime (Dict String PyVal) := []
  categories : Dict String String := []
  linecount : Nat := 0
  duplicates : Dict Nat Bool := []
  kernel : Option String := none
  version : Option String := none
  hostname : Option String := none
  sampleFrequency : Option PyFloat := none

/-- Model of `canonicalise_timestamp`: search the time pattern in the
text, apply the meridiem adjustments and the 24-to-0 wrap to the hour
field, and build the instant from the base date; failures model the
raised exception and the `datetime` constructor's `ValueError`. -/
def canonicalise (date : Nat × Nat × Nat) (ts : String) : Except PErr Datetime :=
  match reSearch tsParserRE ts with
  | some caps =>
      match capGet caps 1, capGet caps 2, capGet caps 3 with
      | some g1, some g2, some g3 =>
          match pyNat g1, pyNat g2, pyNat g3 with
          | some h0, some mi, some s =>
              let h1 :=
                match capGet caps 4 with
                | some m =>
                    let ha := if m = "AM" && h0 = 12 then 0 else h0
                    if m = "PM" && ha < 12 then ha + 12 else ha
                | none => h0
              let h2 := if h1 = 24 then 0 else h1
              match mkDatetime date.1 date.2.1 date.2.2 h2 mi s with
              | some dt => .ok dt
              | none => .error (.badDatetime date.1 date.2.1 date.2.2 h2 mi s)
          | _, _, _ => .error (.badInt ts)
      | _, _, _ => .error (.canonFailed ts)
  | none => .error (.canonFailed ts)

/-- Position of the first header in `INDEX_COLUMN` (the loop over
`headers` in `_record_data`); equals the list length when no header is
an index column. -/
def findIndexColumn : List String → Nat
  | [] => 0
  | h :: rest => if INDEX_COLUMN.contains h then 0 else findIndexColumn rest + 1

/-- Pointwise dataset access: the value stored for key `k` at timestamp
`t`, with absent timestamps reading as an empty inner dictionary. -/
def lookup2 (data : Dict Datetime (Dict String PyVal)) (t : Datetime) (k : String) :
    Option PyVal :=
  ((data.get? t).getD []).get? k

/-- Duplicate registration of `_record_data`: a key already present at
the timestamp adds the current line number to the duplicate registry
(shared by the 2D and 3D loops, whose bodies are identical here). -/
def flagDuplicate (st : PState) (timestamp : Datetime) (i : String) : PState :=
  if ((st.data.get? timestamp).getD []).hasKey i then
    { st with duplicates := st.duplicates.set st.linecount true }
  else st

/-- One datum write of `_record_data`: store the converted value under
the key at the timestamp and update the category index (shared by the
2D and 3D loops). -/
def writeDatum (st : PState) (timestamp : Datetime) (i : String) (v : PyVal) : PState :=
  { st with
    data := st.data.set timestamp (((st.data.get? timestamp).getD []).set i v),
    categories := st.categories.set i (getCategory i) }

/-- Helper: `flagDuplicate` touches only the duplicate registry. -/
theorem flagDuplicate_frame (st : PState) (t : Datetime) (i : String) :
    (flagDuplicate st t i).data = st.data ∧
    (flagDuplicate st t i).date = st.date ∧
    (flagDuplicate st t i).olddate = st.olddate ∧
    (flagDuplicate st t i).linecount = st.linecount := by
  unfold flagDuplicate
  split <;> exact ⟨rfl, rfl, rfl, rfl⟩

/-- Helper: entries already in the duplicate registry survive
`flagDuplicate`. -/
theorem flagDuplicate_dup_preserve (st : PState) (t : Datetime) (i : String)
    (n : Nat) (h : Dict.get? st.duplicates n = some true) :
    Dict.get? (flagDuplicate st t i).duplicates n = some true := by
  unfold flagDuplicate
  split
  · dsimp only
    by_cases hn : st.linecount = n
    · subst hn; exact Dict.get?_set_self st.duplicates st.linecount true
    · rw [Dict.get?_set_ne st.duplicates true hn]; exact h
  · exact h

/-- Helper: a key already present at the timestamp makes `flagDuplicate`
register the current line number. -/
theorem flagDuplicate_dup_hit (st : PState) (t : Datetime) (i : String)
    (h : lookup2 st.data t i ≠ none) :
    Dict.get? (flagDuplicate st t i).duplicates st.linecount = some true := by
  unfold flagDuplicate
  have hk : ((st.data.get? t).getD []).hasKey i = true := by
    unfold Dict.hasKey
    unfold lookup2 at h
    rcases hg : Dict.get? ((st.data.get? t).getD []) i with _ | v
    · exact absurd hg h
    · rfl
  rw [if_pos hk]
  exact Dict.get?_set_self st.duplicates st.linecount true

/-- Helper: the value just written by `writeDatum` is what a lookup at
that key and timestamp returns. -/
theorem writeDatum_lookup_self (st : PState) (t : Datetime) (i : String) (v : PyVal) :
    lookup2 (writeDatum st t i v).data t i = some v := by
  unfold writeDatum lookup2
  dsimp only
  rw [Dict.get?_set_self st.data t]
  exact Dict.get?_set_self _ i v

/-- Helper: `writeDatum` leaves the values of every other key at the
timestamp unchanged. -/
theorem writeDatum_lookup_ne (st : PState) (t : Datetime) (i : String) (v : PyVal)
    {k : String} (hk : i ≠ k) :
    lookup2 (writeDatum st t i v).data t k = lookup2 st.data t k := by
  unfold writeDatum lookup2
  dsimp only
  rw [Dict.get?_set_self st.data t]
  exact Dict.get?_set_ne _ v hk

/-- The "2D" recording loop of `_record_data`: one datum per header,
with the `retrans/s`-after-`estres/s` rename hack, duplicate-line
registration, and `float` conversion falling back to the raw string. -/
def record2D (st : PState) (timestamp : Datetime) (caps : Caps) :
    List String → String → Nat → Except PErr PState
  | [], _, _ => .ok st
  | header :: rest, previous, counter =>
      let i := if header = "retrans/s" && previous = "estres/s" then "retrant/s" else header
      let st := flagDuplicate st timestamp i
      match capGet caps (counter + 2) with
      | none => .error (.missingGroup (counter + 2))
      | some raw =>
          record2D (writeDatum st timestamp i (pyValOf raw)) timestamp caps
            rest i (counter + 1)

/-- The "3D" recording loop of `_record_data`: skip the index column,
record every other header under the composite key
`indexcol#indexval#header`. -/
def record3D (st : PState) (timestamp : Datetime) (caps : Caps)
    (indexcol indexval : String) (column : Nat) :
    List String → Nat → Except PErr PState
  | [], _ => .ok st
  | i :: rest, counter =>
      if counter = column then
        record3D st timestamp caps indexcol indexval column rest (counter + 1)
      else
        let s := indexcol ++ "#" ++ indexval ++ "#" ++ i
        let st := flagDuplicate st timestamp s
        match capGet caps (counter + 2) with
        | none => .error (.missingGroup (counter + 2))
        | some raw =>
            record3D (writeDatum st timestamp s (pyValOf raw)) timestamp caps
              indexcol indexval column rest (counter + 1)

/-- Day-rollover and ordering check of `_record_data`: when the
previous recorded instant's hour was 23 and the new one's is 0, the
tracked date advances one day and the instant is recomputed; otherwise
a strictly earlier instant is the fatal ordering violation; with no
previous instant nothing is checked. -/
def rolloverCheck (st : PState) (g1 : String) (ts0 : Datetime) :
    Except PErr (PState × Datetime) :=
  match st.prev with
  | some p =>
      if p.hour = 23 && ts0.hour = 0 then
        let nd := ts0.addOneDay
        let newdate := (nd.year, nd.month, nd.day)
        match canonicalise newdate g1 with
        | .error e => .error e
        | .ok ts1 => .ok ({ st with olddate := st.date, date := some newdate }, ts1)
      else if ts0.blt p then .error (.timeBackwards ts0 p st.linecount)
      else .ok (st, ts0)
  | none => .ok (st, ts0)

/-- Model of `_record_data`: canonicalise the row instant, apply the
user time window, day-rollover detection and the ordering check, then
record through the 2D or 3D loop; a second return component of `none`
models the bare `return` of a window-skipped row. -/
def recordData (cfg : Config) (st : PState) (headers : List String) (caps : Caps) :
    Except PErr (PState × Option Datetime) :=
  match capGet caps 1 with
  | none => .error (.missingGroup 1)
  | some g1 =>
    match st.date with
    | none => .error .noDate
    | some date =>
      match canonicalise date g1 with
      | .error e => .error e
      | .ok ts0 =>
        if (cfg.starttime.map (fun s0 => ts0.blt s0)).getD false then .ok (st, none)
        else if (cfg.endtime.map (fun e0 => e0.blt ts0)).getD false then .ok (st, none)
        else
          match rolloverCheck st g1 ts0 with
          | .error e => .error e
          | .ok (st, timestamp) =>
            let st := { st with prev := some timestamp }
            let st := if st.data.hasKey timestamp then st
              else { st with data := st.data.set timestamp [] }
            let column := findIndexColumn headers
            if column ≥ headers.length then
              match record2D st timestamp caps headers "" 0 with
              | .error e => .error e
              | .ok st => .ok (st, some timestamp)
            else
              let indexcol := headers.getD column ""
              match capGet caps (column + 2) with
              | none => .error (.missingGroup (column + 2))
              | some indexval =>
                  if indexval = "all" || indexval = "Summary" then .ok (st, some timestamp)
                  else
                    match record3D st timestamp caps indexcol indexval column headers 0 with
                    | .error e => .error e
                    | .ok st => .ok (st, some timestamp)

/-- Date normalisation inside `_parse_first_line`: an `MM/DD/(YY)YY`
date is rewritten to `YYYY-MM-DD`, promoting two-digit years into the
2000s; otherwise the text is kept. -/
def parseDateText (tmpdate : String) : String :=
  match reSearch mmddRE tmpdate with
  | some caps =>
      match capGet caps 1, capGet caps 2, capGet caps 3 with
      | some mm, some dd, some yyyy =>
          let yyyy := if yyyy.length = 2 then "20" ++ yyyy else yyyy
          yyyy ++ "-" ++ mm ++ "-" ++ dd
      | _, _, _ => tmpdate
  | none => tmpdate

/-- Model of `_parse_first_line`: extract kernel, version, hostname and
the base date from the preamble; both regex shapes guarantee the split
date text has exactly three integer pieces. -/
def parseFirstLine (st : PState) (line : String) : Except PErr PState :=
  match reMatch firstLineRE line with
  | none => .error (.firstLineFailed st.linecount line)
  | some caps =>
      match capGet caps 1, capGet caps 2, capGet caps 3, capGet caps 4 with
      | some kern, some vers, some host, some tmpdate =>
          let d := parseDateText tmpdate
          match ((splitOnChar d '-').map pyNat) with
          | [some y, some m, some dd] =>
              .ok { st with kernel := some kern, version := some vers,
                            hostname := some host, date := some (y, m, dd) }
          | _ => .error (.badInt d)
      | _, _, _, _ => .error (.firstLineFailed st.linecount line)

/-- Column part of `_build_data_line_regexp`: for each header, a
whitespace separator and a capture group holding the catalog pattern;
the first unknown header aborts with the error carrying its name. -/
def buildCols (lc : Nat) : Nat → List String → Except PErr RE
  | _, [] => .ok .eps
  | g, h :: rest =>
      match getRegexp h with
      | .error _ => .error (.unknownColumn lc h)
      | .ok hre =>
          match buildCols lc (g + 1) rest with
          | .error e => .error e
          | .ok restRE => .ok (.seq ws1 (.seq (.grp g hre) restRE))

/-- Model of `_build_data_line_regexp`: anchored timestamp group, one
group per header, trailing whitespace, end anchor. -/
def buildDataLineRegexp (lc : Nat) (headers : List String) : Except PErr RE :=
  match buildCols lc 2 headers with
  | .error e => .error e
  | .ok cols => .ok (.seq (.grp 1 tsMetaRE) (.seq cols (.seq ws0 .eol)))

/-- The `table_start` actions of `parse`: classify the header line
(after restoring the base date when a previous table rolled the day),
recognise `LINUX RESTART`, the skip list,, and otherwise compile the
table's row pattern and reset the previous-timestamp tracker. -/
def tableStartHandler (cfg : Config) (st : PState) (line : String) : Except PErr PState :=
  let tsHdrs := columnHeaders line
  let st := match st.olddate with
    | some od => { st with date := some od }
    | none => st
  match tsHdrs with
  | (some _, some hdrs) =>
      if hdrs = ["LINUX", "RESTART"] then .ok { st with headers := hdrs, machine := .tableEnd }
      else if cfg.skipTables.contains (hdrs.headD "") then
        .ok { st with headers := hdrs, machine := .skipUntilEot }
      else
        match buildDataLineRegexp st.linecount hdrs with
        | .error e => .error e
        | .ok pat =>
            .ok { st with headers := hdrs, pattern := pat, prev := none,
                          machine := .tableRow }
  | _ => .error (.expectedHeader st.linecount line)

/-- Trailing-newline strip applied to every read line
(`line.rstrip` with a newline argument). -/
def stripNL (line : String) : String :=
  String.mk ((line.data.reverse.dropWhile (fun c => c = '\n')).reverse)

/-- One step of the parsing state machine on one line, including the
non-consuming fall-through from `after_empty_line` into the
`table_start` actions. -/
def stepLine (cfg : Config) (st0 : PState) (rawLine : String) : Except PErr PState :=
  let st := { st0 with linecount := st0.linecount + 1 }
  let line := stripNL rawLine
  match st.machine with
  | .start =>
      match parseFirstLine st line with
      | .error e => .error e
      | .ok st' => .ok { st' with machine := .afterFirstLine }
  | .afterFirstLine =>
      if emptyLine line then .ok { st with machine := .afterEmptyLine }
      else .error (.expectedEmpty st.linecount line)
  | .afterEmptyLine =>
      if emptyLine line then .ok st
      else if averageLine line then .ok { st with machine := .tableEnd }
      else tableStartHandler cfg { st with machine := .tableStart } line
  | .skipUntilEot =>
      if !(emptyLine line) then .ok st
      else .ok { st with machine := .afterEmptyLine }
  | .tableStart => tableStartHandler cfg st line
  | .tableRow =>
      if emptyLine line then .ok { st with machine := .afterEmptyLine }
      else if averageLine line then .ok { st with machine := .tableEnd }
      else
        match reMatch st.pattern line with
        | none => .error (.rowMismatch st.linecount line)
        | some caps =>
            match recordData cfg st st.headers caps with
            | .error e => .error e
            | .ok (st', _) => .ok st'
  | .tableEnd =>
      if emptyLine line then .ok { st with machine := .afterEmptyLine }
      else if averageLine line then .ok st
      else .error (.expectedTableEnd st.linecount line)

/-- Run the state machine over the lines of one file. -/
def runLines (cfg : Config) : PState → List String → Except PErr PState
  | st, [] => .ok st
  | st, line :: rest =>
      match stepLine cfg st line with
      | .error e => .error e
      | .ok st' => runLines cfg st' rest

/-- Per-file part of `parse`: the previous-timestamp tracker and the
machine state reset at each file boundary, the line counter carries
across files. -/
def parseOneFile (cfg : Config) (st : PState) (lines : List String) : Except PErr PState :=
  runLines cfg { st with prev := none, machine := .start, headers := [] } lines

/-- All input files in sequence into the same dataset. -/
def parseFiles (cfg : Config) : PState → List (List String) → Except PErr PState
  | st, [] => .ok st
  | st, f :: rest =>
      match parseOneFile cfg st f with
      | .error e => .error e
      | .ok st' => parseFiles cfg st' rest

/-! ## Post-parse pruning, frequency, gap detection -/

/-- The `all_keys` accumulation of `_prune_data`: every key of every
timestamp's inner dictionary, first-seen order. -/
def allKeysDict (data : Dict Datetime (Dict String PyVal)) : Dict String Bool :=
  data.foldl (fun acc td => td.2.foldl (fun a kv => a.set kv.1 true) acc) []

/-- Condition under which a timestamp blocks removal of a key: the key
is present there with a value that is not numerically zero. -/
def keepsNonzero (inner : Dict String PyVal) (k : String) : Bool :=
  match inner.get? k with
  | some v => !(valueIsZero v)
  | none => false

/-- The removal decision of `_prune_data` for one key: no timestamp
holds it with a non-zero value. -/
def shouldRemove (data : Dict Datetime (Dict String PyVal)) (k : String) : Bool :=
  data.all (fun td => !(keepsNonzero td.2 k))

/-- Pop a list of keys from an inner dictionary (absent keys are
silently ignored, as the source's `try`/`except`). -/
def eraseKeys (inner : Dict String PyVal) (ks : List String) : Dict String PyVal :=
  ks.foldl Dict.erase inner

/-- Densification pass: every key missing at a timestamp is set to the
null value. -/
def densify (allKeys : List String) (inner : Dict String PyVal) : Dict String PyVal :=
  allKeys.foldl (fun inn i => if inn.hasKey i then inn else inn.set i PyVal.none) inner

/-- Model of `_prune_data`: drop the all-zero keys everywhere, recompute
the key universe, densify every timestamp with null filling, and prune
the category index to the surviving keys. -/
def pruneData (data : Dict Datetime (Dict String PyVal)) (categories : Dict String String) :
    Dict Datetime (Dict String PyVal) × Dict String String :=
  let allKeys := (allKeysDict data).keys
  let keysToRemove := allKeys.filter (fun k => shouldRemove data k)
  let data2 := data.map (fun td => (td.1, eraseKeys td.2 keysToRemove))
  let allKeys2 := allKeysDict data2
  let data3 := data2.map (fun td => (td.1, densify allKeys2.keys td.2))
  let keysToPrune := categories.keys.filter (fun i => !(allKeys2.hasKey i))
  let categories2 := keysToPrune.foldl Dict.erase categories
  (data3, categories2)

/-- `_prune_data` acting on the parser state. -/
def pruneState (st : PState) : PState :=
  let dc := pruneData st.data st.categories
  { st with data := dc.1, categories := dc.2 }

/-- Datetime order used by `sorted` over the dataset's timestamps. -/
def dtLE (a b : Datetime) : Prop := a.ble b = true

instance : DecidableRel dtLE := fun a b =>
  inferInstanceAs (Decidable (a.ble b = true))

/-- Sorted timestamp list (`sorted(self._data.keys())`); the keys are
pairwise distinct, so any comparison sort computes the same list. -/
def sortedTimestamps (data : Dict Datetime (Dict String PyVal)) : List Datetime :=
  data.keys.insertionSort dtLE

/-- Consecutive `total_seconds` deltas of a timestamp list. -/
def consecutiveDeltas : List Datetime → List Int
  | [] => []
  | [_] => []
  | a :: b :: rest => ((b.toSecs : Int) - (a.toSecs : Int)) :: consecutiveDeltas (b :: rest)

/-- Sampling-frequency computation at the end of `parse`: the mean of
the consecutive deltas, modelled as the exact rational (`numpy.mean`
computes it in binary floating point; the claims evaluated against it
concern exact small integers, where the two agree); the mean of an
empty list is `nan`. -/
def computeFrequency (st : PState) : PState :=
  let k := sortedTimestamps st.data
  let diffs := consecutiveDeltas k
  let freq : PyFloat :=
    if diffs.isEmpty then .nan
    else .fin (mkQ diffs.sum diffs.length)
  { st with sampleFrequency := some freq }

/-- Fresh parser state (the `__init__` fields the parse pass uses). -/
def initState : PState := {}

/-- Model of `SarParser.parse`: all files through the state machine,
then pruning, then the sampling-frequency computation. -/
def parse (cfg : Config) (files : List (List String)) : Except PErr PState :=
  match parseFiles cfg initState files with
  | .error e => .error e
  | .ok st => .ok (computeFrequency (pruneState st))

/-- Truncation of `int()` applied to a finite float: integer division
of the lowest-terms fraction, rounding toward zero. -/
def pyTruncToInt (q : Q) : Int := Int.tdiv q.num (q.den : Int)

/-- The gap threshold `int(freq * 1.1)`; the factor is the exact
rational 11/10, which truncates to the same integer as the binary
float product at the frequencies of interest (for frequency 60 both
give 66).  A non-finite or unset frequency would make `int()` raise,
modelled as `none`. -/
def gapThreshold : Option PyFloat → Option Int
  | some (.fin q) => some (pyTruncToInt (q.mul (mkQ 11 10)))
  | _ => none

/-- The scan loop of `find_data_gaps`: report every consecutive pair
whose delta exceeds the threshold. -/
def gapScan (th : Int) : Option Datetime → List Datetime → List (Datetime × Datetime)
  | _, [] => []
  | none, t :: rest => gapScan th (some t) rest
  | some last, t :: rest =>
      if ((t.toSecs : Int) - (last.toSecs : Int)) > th then
        (last, t) :: gapScan th (some t) rest
      else gapScan th (some t) rest

/-- Model of `find_data_gaps`. -/
def findDataGaps (st : PState) : Option (List (Datetime × Datetime)) :=
  (gapThreshold st.sampleFrequency).map
    (fun th => gapScan th none (sortedTimestamps st.data))

/-! ## Claim C3: day rollover -/

/-- Starting state of the C3 scenario: base date 2014-01-05, no
previous timestamp (start of a table). -/
def c3st0 : PState := { date := some (2014, 1, 5) }

/-- First row of the C3 scenario: time 23:58:00, one `proc/s` datum. -/
def c3run1 : Except PErr (PState × Option Datetime) :=
  recordData {} c3st0 ["proc/s"] [(1, "23:58:00"), (2, "1.50")]

/-- State after the first C3 row. -/
def c3st1 : PState :=
  match c3run1 with
  | .ok (st, _) => st
  | .error _ => c3st0

/-- Second row of the C3 scenario: time 00:02:00 in the same table. -/
def c3run2 : Except PErr (PState × Option Datetime) :=
  recordData {} c3st1 ["proc/s"] [(1, "00:02:00"), (2, "2.50")]

/-- State after the second C3 row. -/
def c3st2 : PState :=
  match c3run2 with
  | .ok (st, _) => st
  | .error _ => c3st0

/-- C3: a table whose consecutive rows carry times 23:58:00 and then
00:02:00 (same file, no new date line) records both rows without an
ordering error: the previous hour being 23 and the new hour being 0
advance the tracked date by one day, the second instant is recomputed
on the new date, and the two recorded samples are one calendar day
apart. -/
theorem c3_day_rollover_one_day_apart :
    c3run1.map Prod.snd = .ok (some ⟨2014, 1, 5, 23, 58, 0⟩) ∧
    c3run2.map Prod.snd = .ok (some ⟨2014, 1, 6, 0, 2, 0⟩) ∧
    c3st2.date = some (2014, 1, 6) ∧ c3st2.olddate = some (2014, 1, 5) ∧
    lookup2 c3st2.data ⟨2014, 1, 5, 23, 58, 0⟩ "proc/s" = some (.num (.fin ⟨3, 2⟩)) ∧
    lookup2 c3st2.data ⟨2014, 1, 6, 0, 2, 0⟩ "proc/s" = some (.num (.fin ⟨5, 2⟩)) ∧
    Datetime.civilDays 2014 1 6 = Datetime.civilDays 2014 1 5 + 1 :=
  ⟨rfl, rfl, rfl, rfl, rfl, rfl, rfl⟩

/-! ## Claim C4: ordering violation -/

/-- Helper: under a parsed in-window instant that is strictly earlier
than the previous one while the 23-to-0 rollover condition fails,
`_record_data` raises the ordering violation. -/
theorem recordData_backwards (cfg : Config) (st : PState) (headers : List String)
    (caps : Caps) (g1 : String) (date : Nat × Nat × Nat) (ts0 p : Datetime)
    (hg : capGet caps 1 = some g1)
    (hd : st.date = some date)
    (hc : canonicalise date g1 = .ok ts0)
    (hs : (cfg.starttime.map (fun s0 => ts0.blt s0)).getD false = false)
    (he : (cfg.endtime.map (fun e0 => e0.blt ts0)).getD false = false)
    (hp : st.prev = some p)
    (hroll : (p.hour = 23 && ts0.hour = 0) = false)
    (hlt : ts0.blt p = true) :
    recordData cfg st headers caps = .error (.timeBackwards ts0 p st.linecount) := by
  simp [recordData, rolloverCheck, hg, hd, hc, hp, hroll, hlt, hs, he]

/-- Pattern used by the concrete C4 witness: the compiled row pattern
of a one-column `proc/s` table. -/
def c4pat : RE :=
  match buildDataLineRegexp 0 ["proc/s"] with
  | .ok p => p
  | .error _ => .eps

/-- C4: when a row's instant is strictly earlier than the previously
recorded instant and the 23-to-0 rollover condition does not hold,
recording raises the fatal `TimestampOrderingViolation`, and a
`table_row` step on such a line propagates it, aborting the parse with
no sample recorded for the row. -/
theorem c4_time_backwards_aborts (cfg : Config) (st : PState) (headers : List String)
    (caps : Caps) (g1 : String) (date : Nat × Nat × Nat) (ts0 p : Datetime)
    (raw : String)
    (hg : capGet caps 1 = some g1)
    (hd : st.date = some date)
    (hc : canonicalise date g1 = .ok ts0)
    (hs : (cfg.starttime.map (fun s0 => ts0.blt s0)).getD false = false)
    (he : (cfg.endtime.map (fun e0 => e0.blt ts0)).getD false = false)
    (hp : st.prev = some p)
    (hroll : (p.hour = 23 && ts0.hour = 0) = false)
    (hlt : ts0.blt p = true)
    (hm : st.machine = .tableRow)
    (hne : emptyLine (stripNL raw) = false)
    (hna : averageLine (stripNL raw) = false)
    (hmt : reMatch st.pattern (stripNL raw) = some caps)
    (hh : st.headers = headers) :
    recordData cfg st headers caps = .error (.timeBackwards ts0 p st.linecount) ∧
    stepLine cfg st raw = .error (.timeBackwards ts0 p (st.linecount + 1)) := by
  refine ⟨recordData_backwards cfg st headers caps g1 date ts0 p hg hd hc hs he hp hroll hlt, ?_⟩
  have hrec : recordData cfg { st with linecount := st.linecount + 1 } headers caps
      = .error (.timeBackwards ts0 p (st.linecount + 1)) :=
    recordData_backwards cfg _ headers caps g1 date ts0 p hg hd hc hs he hp hroll hlt
  rw [hm, hh] at hrec
  simp [stepLine, hm, hne, hna, hmt, hh, hrec]

/-- State of the concrete C4 witness: inside a one-column `proc/s`
table with previous instant 12:00:00. -/
def c4st : PState :=
  { machine := .tableRow, headers := ["proc/s"], pattern := c4pat,
    date := some (2014, 1, 5), prev := some ⟨2014, 1, 5, 12, 0, 0⟩ }

/-- C4 witness: a concrete one-column table row at 11:00:00 after a
previous instant at 12:00:00. -/
theorem c4_witness :
    recordData {} c4st ["proc/s"] [(1, "11:00:00"), (2, "1.00")]
      = .error (.timeBackwards ⟨2014, 1, 5, 11, 0, 0⟩ ⟨2014, 1, 5, 12, 0, 0⟩ 0) ∧
    stepLine {} c4st "11:00:00    1.00"
      = .error (.timeBackwards ⟨2014, 1, 5, 11, 0, 0⟩ ⟨2014, 1, 5, 12, 0, 0⟩ 1) :=
  c4_time_backwards_aborts {} c4st ["proc/s"] [(1, "11:00:00"), (2, "1.00")]
    "11:00:00" (2014, 1, 5) ⟨2014, 1, 5, 11, 0, 0⟩ ⟨2014, 1, 5, 12, 0, 0⟩
    "11:00:00    1.00" rfl rfl rfl rfl rfl rfl (by decide) (by decide) rfl rfl rfl rfl rfl

/-! ## Claim C6: aggregate rows are skipped -/

/-- Helper: a successful rollover check only rewrites the tracked
dates; dataset, categories, duplicate registry and line number pass
through unchanged. -/
theorem rolloverCheck_fields {st : PState} {g1 : String} {ts0 : Datetime}
    {stR : PState} {tsR : Datetime}
    (h : rolloverCheck st g1 ts0 = .ok (stR, tsR)) :
    stR.data = st.data ∧ stR.categories = st.categories ∧
    stR.duplicates = st.duplicates ∧ stR.linecount = st.linecount := by
  unfold rolloverCheck at h
  cases hp : st.prev with
  | none =>
      rw [hp] at h
      cases h
      exact ⟨rfl, rfl, rfl, rfl⟩
  | some p =>
      rw [hp] at h
      dsimp only at h
      by_cases hr : (p.hour = 23 && ts0.hour = 0) = true
      · rw [if_pos hr] at h
        split at h
        · exact Except.noConfusion h
        · cases h
          exact ⟨rfl, rfl, rfl, rfl⟩
      · rw [if_neg hr] at h
        by_cases hlt : ts0.blt p = true
        · rw [if_pos hlt] at h
          exact Except.noConfusion h
        · rw [if_neg hlt] at h
          cases h
          exact ⟨rfl, rfl, rfl, rfl⟩

/-- C6: a matched 3D row whose index-column value is `all` or `Summary`
is skipped entirely: recording succeeds returning the row's instant,
the value stored at every (timestamp, key) pair is unchanged, and the
category index and duplicate registry are untouched. -/
theorem c6_aggregate_row_skipped (cfg : Config) (st : PState) (headers : List String)
    (caps : Caps) (g1 iv : String) (date : Nat × Nat × Nat) (ts0 : Datetime)
    (stR : PState) (tsR : Datetime)
    (hg : capGet caps 1 = some g1)
    (hd : st.date = some date)
    (hc : canonicalise date g1 = .ok ts0)
    (hs : (cfg.starttime.map (fun s0 => ts0.blt s0)).getD false = false)
    (he : (cfg.endtime.map (fun e0 => e0.blt ts0)).getD false = false)
    (hro : rolloverCheck st g1 ts0 = .ok (stR, tsR))
    (hcol : findIndexColumn headers < headers.length)
    (hidx : capGet caps (findIndexColumn headers + 2) = some iv)
    (hiv : iv = "all" ∨ iv = "Summary") :
    (recordData cfg st headers caps).map
        (fun p => (p.2, p.1.categories, p.1.duplicates))
      = .ok (some tsR, st.categories, st.duplicates) ∧
    ∀ t k, (recordData cfg st headers caps).map (fun p => lookup2 p.1.data t k)
      = .ok (lookup2 st.data t k) := by
  obtain ⟨hdata, hcat, hdup, _⟩ := rolloverCheck_fields hro
  have hivb : (iv = "all" || iv = "Summary") = true := by
    rcases hiv with h | h <;> simp [h]
  have hnotge : ¬ (findIndexColumn headers ≥ headers.length) := not_le.mpr hcol
  constructor
  · simp only [recordData, hg, hd, hc, hs, he, hro, hidx, hivb]
    by_cases hhk : st.data.hasKey tsR = true <;>
      simp [hhk, hcat, hdup, hnotge, hdata, Except.map]
  · intro t k
    simp only [recordData, hg, hd, hc, hs, he, hro, hidx, hivb]
    by_cases hhk : st.data.hasKey tsR = true
    · simp [hhk, hdata, hnotge, Except.map]
    · have hnone : st.data.get? tsR = none := by
        rcases hget : st.data.get? tsR with _ | v
        · rfl
        · exact absurd (by simp [Dict.hasKey, hget]) hhk
      by_cases ht : t = tsR
      · subst ht
        simp [hhk, hnotge, lookup2, Dict.get?_set_self, hdata, hnone, Dict.get?,
          Except.map]
      · have hne : tsR ≠ t := fun hq => ht hq.symm
        simp [hhk, hnotge, lookup2, Dict.get?_set_ne _ _ hne, hdata, Except.map]

/-- State of the concrete C6 witness. -/
def c6st : PState := { date := some (2014, 1, 5) }

/-- Captures of the concrete C6 witness: a per-CPU row whose index
value is the aggregate marker `all`. -/
def c6caps : Caps := [(1, "12:00:00"), (2, "all"), (3, "50.00")]

/-- C6 witness: a concrete `CPU %usr` row with index value `all`. -/
theorem c6_witness :
    (recordData {} c6st ["CPU", "%usr"] c6caps).map
        (fun p => (p.2, p.1.categories, p.1.duplicates))
      = .ok (some ⟨2014, 1, 5, 12, 0, 0⟩, c6st.categories, c6st.duplicates) ∧
    (recordData {} c6st ["CPU", "%usr"] c6caps).map
        (fun p => lookup2 p.1.data ⟨2014, 1, 5, 12, 0, 0⟩ "CPU#all#%usr")
      = .ok (lookup2 c6st.data ⟨2014, 1, 5, 12, 0, 0⟩ "CPU#all#%usr") := by
  have h := c6_aggregate_row_skipped {} c6st ["CPU", "%usr"] c6caps "12:00:00" "all"
    (2014, 1, 5) ⟨2014, 1, 5, 12, 0, 0⟩ c6st ⟨2014, 1, 5, 12, 0, 0⟩
    rfl rfl rfl rfl rfl rfl (by decide) rfl (Or.inl rfl)
  exact ⟨h.1, h.2 ⟨2014, 1, 5, 12, 0, 0⟩ "CPU#all#%usr"⟩

/-! ## Claim C10: the previous-timestamp tracker resets per table -/

/-- Helper: when the table-start actions hand control to `table_row`,
the previous-timestamp tracker has been reset. -/
theorem tableStartHandler_prev_reset {cfg : Config} {st : PState} {line : String}
    {st' : PState} (h : tableStartHandler cfg st line = .ok st')
    (hrow : st'.machine = .tableRow) : st'.prev = none := by
  unfold tableStartHandler at h
  split at h
  · dsimp only at h
    split at h
    · split at h
      · cases h
        exact absurd hrow (by simp)
      · split at h
        · cases h
          exact absurd hrow (by simp)
        · split at h
          · exact Except.noConfusion h
          · cases h
            rfl
    all_goals exact Except.noConfusion h
  · dsimp only at h
    split at h
    · split at h
      · cases h
        exact absurd hrow (by simp)
      · split at h
        · cases h
          exact absurd hrow (by simp)
        · split at h
          · exact Except.noConfusion h
          · cases h
            rfl
    all_goals exact Except.noConfusion h

/-- Helper: every error of the 2D recording loop is a missing capture
group, and a successful pass leaves the tracked dates unchanged. -/
theorem record2D_inv (t : Datetime) (caps : Caps) :
    ∀ (hdrs : List String) (st : PState) (prev : String) (counter : Nat),
      (∀ e, record2D st t caps hdrs prev counter = .error e → ∃ n, e = .missingGroup n) ∧
      (∀ st', record2D st t caps hdrs prev counter = .ok st' →
        st'.date = st.date ∧ st'.olddate = st.olddate) := by
  intro hdrs
  induction hdrs with
  | nil =>
      intro st prev counter
      constructor
      · intro e he
        exact Except.noConfusion he
      · intro st' h
        cases h
        exact ⟨rfl, rfl⟩
  | cons hd rest ih =>
      intro st prev counter
      constructor
      · intro e he
        unfold record2D at he
        rcases hcap : capGet caps (counter + 2) with _ | raw
        · rw [hcap] at he
          dsimp only at he
          cases he
          exact ⟨counter + 2, rfl⟩
        · rw [hcap] at he
          dsimp only at he
          exact (ih _ _ _).1 e he
      · intro st' h
        unfold record2D at h
        rcases hcap : capGet caps (counter + 2) with _ | raw
        · rw [hcap] at h
          dsimp only at h
          exact Except.noConfusion h
        · rw [hcap] at h
          dsimp only at h
          have h2 := (ih _ _ _).2 st' h
          obtain ⟨-, hd2, ho2, -⟩ := flagDuplicate_frame st t
            (if hd = "retrans/s" && prev = "estres/s" then "retrant/s" else hd)
          exact ⟨h2.1.trans hd2, h2.2.trans ho2⟩

/-- Helper: the same for the 3D recording loop. -/
theorem record3D_inv (t : Datetime) (caps : Caps) (ic iv : String) (col : Nat) :
    ∀ (hdrs : List String) (st : PState) (counter : Nat),
      (∀ e, record3D st t caps ic iv col hdrs counter = .error e → ∃ n, e = .missingGroup n) ∧
      (∀ st', record3D st t caps ic iv col hdrs counter = .ok st' →
        st'.date = st.date ∧ st'.olddate = st.olddate) := by
  intro hdrs
  induction hdrs with
  | nil =>
      intro st counter
      constructor
      · intro e he
        exact Except.noConfusion he
      · intro st' h
        cases h
        exact ⟨rfl, rfl⟩
  | cons hd rest ih =>
      intro st counter
      constructor
      · intro e he
        unfold record3D at he
        by_cases hcc : counter = col
        · rw [if_pos hcc] at he
          exact (ih _ _).1 e he
        · rw [if_neg hcc] at he
          rcases hcap : capGet caps (counter + 2) with _ | raw
          · rw [hcap] at he
            dsimp only at he
            cases he
            exact ⟨counter + 2, rfl⟩
          · rw [hcap] at he
            dsimp only at he
            exact (ih _ _).1 e he
      · intro st' h
        unfold record3D at h
        by_cases hcc : counter = col
        · rw [if_pos hcc] at h
          exact (ih _ _).2 st' h
        · rw [if_neg hcc] at h
          rcases hcap : capGet caps (counter + 2) with _ | raw
          · rw [hcap] at h
            dsimp only at h
            exact Except.noConfusion h
          · rw [hcap] at h
            dsimp only at h
            have h2 := (ih _ _).2 st' h
            obtain ⟨-, hd2, ho2, -⟩ := flagDuplicate_frame st t (ic ++ "#" ++ iv ++ "#" ++ hd)
            exact ⟨h2.1.trans hd2, h2.2.trans ho2⟩

/-- Helper: `canonicalise` never produces an ordering-violation error. -/
theorem canonicalise_error_shape {date : Nat × Nat × Nat} {ts : String} {e : PErr}
    (h : canonicalise date ts = .error e) : ∀ a b lc, e ≠ .timeBackwards a b lc := by
  intro a b lc
  unfold canonicalise at h
  repeat' (first | split at h | (dsimp only at h; split at h))
  all_goals first
    | exact Except.noConfusion h
    | (cases h; simp)

/-- C10: the previous-timestamp tracker is reset at the start of every
table, not only per file: any machine step that newly enters
`table_row` leaves the tracker cleared, and recording with a cleared
tracker can neither raise the ordering violation nor trigger
day-rollover (the tracked dates are unchanged on success). -/
theorem c10_prev_reset_per_table :
    (∀ (cfg : Config) (st : PState) (raw : String) (st' : PState),
        stepLine cfg st raw = .ok st' → st'.machine = .tableRow →
        st.machine ≠ .tableRow → st'.prev = none) ∧
    (∀ (cfg : Config) (st : PState) (headers : List String) (caps : Caps),
        st.prev = none →
        (∀ a b lc, recordData cfg st headers caps ≠ .error (.timeBackwards a b lc)) ∧
        (∀ st' r, recordData cfg st headers caps = .ok (st', r) →
          st'.date = st.date ∧ st'.olddate = st.olddate)) := by
  constructor
  · intro cfg st raw st' hstep hrow hnot
    unfold stepLine at hstep
    dsimp only at hstep
    cases hm : st.machine <;> rw [hm] at hstep <;> dsimp only at hstep
    · split at hstep
      · exact Except.noConfusion hstep
      · cases hstep
        exact absurd hrow (by simp)
    · split at hstep
      · cases hstep
        exact absurd hrow (by simp)
      · exact Except.noConfusion hstep
    · split at hstep
      · cases hstep
        dsimp only at hrow
        exact absurd hrow (by simp)
      · split at hstep
        · cases hstep
          exact absurd hrow (by simp)
        · exact tableStartHandler_prev_reset hstep hrow
    · split at hstep
      · cases hstep
        dsimp only at hrow
        exact absurd hrow (by simp)
      · cases hstep
        exact absurd hrow (by simp)
    · exact tableStartHandler_prev_reset hstep hrow
    · exact absurd hm hnot
    · split at hstep
      · cases hstep
        exact absurd hrow (by simp)
      · split at hstep
        · cases hstep
          dsimp only at hrow
          exact absurd hrow (by simp)
        · exact Except.noConfusion hstep
  · intro cfg st headers caps hprev
    have hro : ∀ g1 ts0, rolloverCheck st g1 ts0 = .ok (st, ts0) := by
      intro g1 ts0
      unfold rolloverCheck
      rw [hprev]
    constructor
    · intro a b lc hcontra
      unfold recordData at hcontra
      split at hcontra
      · simp at hcontra
      · split at hcontra
        · simp at hcontra
        · split at hcontra
          · rename_i e heq
            injection hcontra with h1
            exact canonicalise_error_shape heq a b lc h1
          · rename_i ts0 heq
            rw [hro] at hcontra
            dsimp only at hcontra
            split at hcontra
            · simp at hcontra
            · split at hcontra
              · simp at hcontra
              · split at hcontra
                · split at hcontra
                  · rename_i e2 he2
                    injection hcontra with h1
                    obtain ⟨n, hn⟩ := (record2D_inv _ caps headers _ "" 0).1 _ he2
                    rw [hn] at h1
                    exact PErr.noConfusion h1
                  · simp at hcontra
                · split at hcontra
                  · simp at hcontra
                  · split at hcontra
                    · simp at hcontra
                    · split at hcontra
                      · rename_i e3 he3
                        injection hcontra with h1
                        obtain ⟨n, hn⟩ := (record3D_inv _ caps _ _ _ headers _ _).1 _ he3
                        rw [hn] at h1
                        exact PErr.noConfusion h1
                      · simp at hcontra
    · intro st' r hok
      unfold recordData at hok
      split at hok
      · exact Except.noConfusion hok
      · split at hok
        · exact Except.noConfusion hok
        · split at hok
          · exact Except.noConfusion hok
          · rename_i ts0 heq
            rw [hro] at hok
            dsimp only at hok
            split at hok
            · cases hok
              exact ⟨rfl, rfl⟩
            · split at hok
              · cases hok
                exact ⟨rfl, rfl⟩
              · split at hok
                · split at hok
                  · exact Except.noConfusion hok
                  · rename_i st3 he2
                    cases hok
                    obtain ⟨hd2, ho2⟩ := (record2D_inv _ caps headers _ "" 0).2 _ he2
                    constructor
                    · rw [hd2]
                      split <;> rfl
                    · rw [ho2]
                      split <;> rfl
                · split at hok
                  · exact Except.noConfusion hok
                  · split at hok
                    · cases hok
                      constructor
                      · split <;> rfl
                      · split <;> rfl
                    · split at hok
                      · exact Except.noConfusion hok
                      · rename_i st3 he3
                        cases hok
                        obtain ⟨hd2, ho2⟩ := (record3D_inv _ caps _ _ _ headers _ _).2 _ he3
                        constructor
                        · rw [hd2]
                          split <;> rfl
                        · rw [ho2]
                          split <;> rfl

/-- C10 witness state: a machine sitting between tables with a stale
previous timestamp from the preceding table. -/
def c10st : PState :=
  { machine := .afterEmptyLine, date := some (2014, 1, 5),
    prev := some ⟨2014, 1, 5, 23, 0, 0⟩ }

/-- C10 witness: the state after stepping a header line. -/
def c10st' : PState :=
  match stepLine {} c10st "00:06:00     proc/s" with
  | .ok s => s
  | .error _ => c10st

/-- C10 witness recording state: cleared tracker. -/
def c10rec : PState := { date := some (2014, 1, 5) }

/-- C10 witness: state after recording with a cleared tracker. -/
def c10rec' : PState :=
  match recordData {} c10rec ["proc/s"] [(1, "11:00:00"), (2, "1.00")] with
  | .ok (s, _) => s
  | .error _ => c10rec

/-- C10 witness: a concrete header-line step resets the tracker, and a
concrete recording with a cleared tracker neither errors nor moves the
date. -/
theorem c10_witness :
    c10st'.prev = none ∧
    recordData {} c10rec ["proc/s"] [(1, "11:00:00"), (2, "1.00")]
      ≠ .error (.timeBackwards ⟨2014, 1, 5, 11, 0, 0⟩ ⟨2014, 1, 5, 12, 0, 0⟩ 0) ∧
    c10rec'.date = c10rec.date ∧ c10rec'.olddate = c10rec.olddate := by
  refine ⟨c10_prev_reset_per_table.1 {} c10st "00:06:00     proc/s" c10st' (by rfl) rfl
      (by decide), ?_, ?_⟩
  · exact (c10_prev_reset_per_table.2 {} c10rec ["proc/s"]
      [(1, "11:00:00"), (2, "1.00")] rfl).1 _ _ _
  · exact (c10_prev_reset_per_table.2 {} c10rec ["proc/s"]
      [(1, "11:00:00"), (2, "1.00")] rfl).2 c10rec'
      (some ⟨2014, 1, 5, 11, 0, 0⟩) (by rfl)

/-! ## Claim C7: hour canonicalisation -/

/-- Hour mapping exactly as claim C7 words it: with suffix AM and hour
12 the hour becomes 0; with suffix PM and hour below 12 it gains 12;
without a meridiem suffix an hour value of 24 becomes 0; all other
hours are unchanged. -/
def claimedHourMap (h : Nat) (mer : Option String) : Nat :=
  if mer = some "AM" ∧ h = 12 then 0
  else if mer = some "PM" ∧ h < 12 then h + 12
  else if mer = Option.none ∧ h = 24 then 0
  else h

/-- C7 counterexample: at time text `24:00:00 AM` the claim's mapping
leaves the hour at 24 (its wrap applies only without a meridiem
suffix), but the code wraps the hour to 0 whether or not a suffix is
present and produces midnight. -/
theorem c7_counterexample :
    claimedHourMap 24 (some "AM") = 24 ∧
    canonicalise (2014, 1, 1) "24:00:00 AM" = .ok ⟨2014, 1, 1, 0, 0, 0⟩ ∧
    (24 : Nat) ≠ 0 := by
  exact ⟨by decide, by rfl, by decide⟩

/-- Hour mapping as the code has it (the amended claim): the meridiem
adjustments first, then the 24-to-0 wrap regardless of whether a
suffix is present. -/
def amendedHourMap (h : Nat) (mer : Option String) : Nat :=
  let h1 :=
    if mer = some "AM" ∧ h = 12 then 0
    else if mer = some "PM" ∧ h < 12 then h + 12
    else h
  if h1 = 24 then 0 else h1

/-- C7 (amended): for every time text whose search yields hour, minute,
second and optional meridiem captures, the canonicaliser produces the
instant built from the amended hour mapping applied before combining
with the base date; and a text the pattern does not match raises an
error. -/
theorem c7_amended_hour_mapping (date : Nat × Nat × Nat) (ts : String)
    (caps : Caps) (g1 g2 g3 : String) (h mi s : Nat)
    (hsearch : reSearch tsParserRE ts = some caps)
    (hg1 : capGet caps 1 = some g1) (hn1 : pyNat g1 = some h)
    (hg2 : capGet caps 2 = some g2) (hn2 : pyNat g2 = some mi)
    (hg3 : capGet caps 3 = some g3) (hn3 : pyNat g3 = some s) :
    canonicalise date ts =
      (match mkDatetime date.1 date.2.1 date.2.2 (amendedHourMap h (capGet caps 4)) mi s with
       | some dt => .ok dt
       | none => .error (.badDatetime date.1 date.2.1 date.2.2
           (amendedHourMap h (capGet caps 4)) mi s)) ∧
    (∀ (d2 : Nat × Nat × Nat) (ts2 : String), reSearch tsParserRE ts2 = none →
      canonicalise d2 ts2 = .error (.canonFailed ts2)) := by
  constructor
  · unfold canonicalise
    rw [hsearch]
    dsimp only
    rw [hg1, hg2, hg3]
    dsimp only
    rw [hn1, hn2, hn3]
    dsimp only
    rcases hm : capGet caps 4 with _ | m
    · simp [amendedHourMap]
    · simp only [amendedHourMap]
      by_cases hA : m = "AM"
      · subst hA
        by_cases h12 : h = 12
        · subst h12
          simp
        · simp [h12]
      · by_cases hP : m = "PM"
        · subst hP
          by_cases hlt : h < 12 <;> simp [hlt, hA]
        · simp [hA, hP]
  · intro d2 ts2 hnone
    unfold canonicalise
    rw [hnone]

/-- Captures of the C7 witness text `11:30:00 PM`. -/
def c7caps : Caps := [(1, "11"), (2, "30"), (3, "00"), (4, "PM")]

/-- C7 witness: the amended mapping at a concrete PM time, and the
failure case at a concrete non-time text. -/
theorem c7_witness :
    canonicalise (2014, 1, 1) "11:30:00 PM" =
      (match mkDatetime 2014 1 1 (amendedHourMap 11 (capGet c7caps 4)) 30 0 with
       | some dt => .ok dt
       | none => .error (.badDatetime 2014 1 1 (amendedHourMap 11 (capGet c7caps 4)) 30 0)) ∧
    canonicalise (2014, 1, 1) "not a time" = .error (.canonFailed "not a time") := by
  have h := c7_amended_hour_mapping (2014, 1, 1) "11:30:00 PM" c7caps
    "11" "30" "00" 11 30 0 (by rfl) rfl rfl rfl rfl rfl rfl
  exact ⟨h.1, h.2 (2014, 1, 1) "not a time" (by rfl)⟩

/-! ## Claim C5: unknown column headers are fatal -/

/-- C5: a header token with no value pattern anywhere in the catalog
makes `get_regexp` fail with the message carrying the name; the
pattern builder turns the first such token into the fatal
`unknownColumn` error rather than dropping the column; a header line
containing it makes the machine step fail with that error; and a
failing step aborts the run of the remaining lines, so no row of the
table is ever recorded. -/
theorem c5_unknown_column_fatal :
    (∀ name : String,
        specialRegexps.find? (fun p => p.1 = name) = none →
        baseGraphsFind name = none →
        reMatch iFallbackRE name = none →
        getRegexp name = .error ("regexp for " ++ name ++ " could not be found")) ∧
    (∀ (lc g : Nat) (l1 l2 : List String) (h m : String),
        getRegexp h = .error m →
        (∀ h' ∈ l1, (getRegexp h').isOk = true) →
        buildCols lc g (l1 ++ h :: l2) = .error (.unknownColumn lc h) ∧
        buildDataLineRegexp lc (l1 ++ h :: l2) = .error (.unknownColumn lc h)) ∧
    (∀ (cfg : Config) (st : PState) (raw ts h : String) (hdrs : List String),
        st.machine = .afterEmptyLine →
        emptyLine (stripNL raw) = false →
        averageLine (stripNL raw) = false →
        columnHeaders (stripNL raw) = (some ts, some hdrs) →
        hdrs ≠ ["LINUX", "RESTART"] →
        cfg.skipTables.contains (hdrs.headD "") = false →
        buildDataLineRegexp (st.linecount + 1) hdrs
          = .error (.unknownColumn (st.linecount + 1) h) →
        stepLine cfg st raw = .error (.unknownColumn (st.linecount + 1) h)) ∧
    (∀ (cfg : Config) (st : PState) (line : String) (rest : List String) (e : PErr),
        stepLine cfg st line = .error e →
        runLines cfg st (line :: rest) = .error e) := by
  refine ⟨?_, ?_, ?_, ?_⟩
  · intro name h1 h2 h3
    unfold getRegexp
    rw [h1]
    dsimp only [Option.map]
    rw [h2]
    simp [h3]
  · intro lc g l1 l2 h m hErr hKnown
    have hb : ∀ (g : Nat) (l1 : List String), (∀ h' ∈ l1, (getRegexp h').isOk = true) →
        buildCols lc g (l1 ++ h :: l2) = .error (.unknownColumn lc h) := by
      intro g l1
      induction l1 generalizing g with
      | nil =>
          intro _
          rw [List.nil_append]
          unfold buildCols
          rw [hErr]
      | cons x l1' ih =>
          intro hk
          have hx := hk x (List.mem_cons_self _ _)
          rcases hgx : getRegexp x with e | r
          · rw [hgx] at hx
            simp [Except.isOk, Except.toBool] at hx
          · have hrest := ih (g + 1) (fun h' hh' => hk h' (List.mem_cons_of_mem _ hh'))
            rw [List.cons_append]
            unfold buildCols
            rw [hgx]
            dsimp only
            rw [hrest]
    constructor
    · exact hb g l1 hKnown
    · unfold buildDataLineRegexp
      rw [hb 2 l1 hKnown]
  · intro cfg st raw ts h hdrs hm hne hna hch hlr hskip hbuild
    have hskip' : hdrs.head?.getD "" ∉ cfg.skipTables := by
      simpa using hskip
    unfold stepLine tableStartHandler
    rcases ho : st.olddate with _ | od <;>
      simp [hm, hne, hna, hch, ho, hlr, hskip', hbuild]
  · intro cfg st line rest e hstep
    unfold runLines
    rw [hstep]

/-- C5 witness state: between tables, base date set. -/
def c5st : PState := { machine := .afterEmptyLine, date := some (2014, 1, 5) }

/-- C5 witness: the unknown header token `kumquat` in a concrete table
header line. -/
theorem c5_witness :
    getRegexp "kumquat" = .error "regexp for kumquat could not be found" ∧
    buildCols 7 2 ["CPU", "kumquat", "%usr"] = .error (.unknownColumn 7 "kumquat") ∧
    buildDataLineRegexp 7 ["CPU", "kumquat", "%usr"]
      = .error (.unknownColumn 7 "kumquat") ∧
    stepLine {} c5st "12:00:00        CPU     kumquat   %usr"
      = .error (.unknownColumn 1 "kumquat") ∧
    runLines {} c5st ["12:00:00        CPU     kumquat   %usr", "12:00:00   all   1.00"]
      = .error (.unknownColumn 1 "kumquat") := by
  have h := c5_unknown_column_fatal
  have h1 : getRegexp "kumquat" = .error "regexp for kumquat could not be found" :=
    h.1 "kumquat" rfl rfl rfl
  have hb := h.2.1 7 2 ["CPU"] ["%usr"] "kumquat"
    "regexp for kumquat could not be found" h1 (by decide)
  have hstep := h.2.2.1 {} c5st "12:00:00        CPU     kumquat   %usr"
    "12:00:00" "kumquat" ["CPU", "kumquat", "%usr"]
    rfl (by rfl) (by rfl) (by rfl) (by decide) (by rfl) (by rfl)
  have hrun := h.2.2.2 {} c5st "12:00:00        CPU     kumquat   %usr"
    ["12:00:00   all   1.00"] (.unknownColumn 1 "kumquat") hstep
  exact ⟨h1, hb.1, hb.2, hstep, hrun⟩

/-! ## Pruning lemmas (claims C1 and C2) -/

theorem Dict.get?_eq_none {κ α : Type} [DecidableEq κ] (d : Dict κ α) (k : κ)
    (h : d.hasKey k = false) : d.get? k = none := by
  unfold Dict.hasKey at h
  rcases hg : d.get? k with _ | v
  · rfl
  · rw [hg] at h
    simp at h

theorem Dict.get?_foldl_erase {κ α : Type} [DecidableEq κ] (ks : List κ)
    (d : Dict κ α) (k : κ) :
    (ks.foldl Dict.erase d).get? k = if k ∈ ks then none else d.get? k := by
  induction ks generalizing d with
  | nil => simp
  | cons k0 rest ih =>
      simp only [List.foldl_cons, ih]
      by_cases h0 : k = k0
      · subst h0
        by_cases hr : k ∈ rest <;> simp [hr, Dict.get?_erase_self]
      · by_cases hr : k ∈ rest <;>
          simp [hr, h0, Dict.get?_erase_ne _ (fun hq => h0 hq.symm)]

theorem Dict.hasKey_fold_set_true {κ α : Type} [DecidableEq κ]
    (l : List (κ × α)) (acc : Dict κ Bool) (k : κ) :
    (l.foldl (fun a kv => a.set kv.1 true) acc).hasKey k
      = (acc.hasKey k || Dict.hasKey l k) := by
  induction l generalizing acc with
  | nil => simp [Dict.hasKey, Dict.get?]
  | cons p rest ih =>
      simp only [List.foldl_cons, ih, Dict.hasKey_set]
      by_cases h : p.1 = k <;>
        simp [Dict.hasKey, Dict.get?, h, Bool.or_assoc, Bool.or_comm]

theorem hasKey_allKeysDict (data : Dict Datetime (Dict String PyVal)) (k : String) :
    (allKeysDict data).hasKey k = data.any (fun td => td.2.hasKey k) := by
  suffices h : ∀ acc : Dict String Bool,
      ((data.foldl (fun acc td => td.2.foldl (fun a kv => a.set kv.1 true) acc) acc).hasKey k)
        = (acc.hasKey k || data.any (fun td => td.2.hasKey k)) by
    simpa [allKeysDict, Dict.hasKey, Dict.get?] using h []
  induction data with
  | nil => simp
  | cons td rest ih =>
      intro acc
      simp [List.foldl_cons, ih, Dict.hasKey_fold_set_true, Bool.or_assoc]

theorem get?_densify (allKeys : List String) (inner : Dict String PyVal) (k : String) :
    (densify allKeys inner).get? k =
      if inner.hasKey k then inner.get? k
      else if k ∈ allKeys then some PyVal.none else none := by
  induction allKeys generalizing inner with
  | nil =>
      by_cases h : inner.hasKey k <;>
        simp [densify, h, Dict.get?_eq_none]
  | cons a rest ih =>
      simp only [densify, List.foldl_cons] at ih ⊢
      by_cases ha : inner.hasKey a
      · by_cases hk : inner.hasKey k
        · simp [ha, ih, hk]
        · have hka : k ≠ a := by
            intro hq
            rw [hq] at hk
            exact hk ha
          simp [ha, ih, hk, hka]
      · by_cases hk : k = a
        · subst hk
          simp [ha, ih, Dict.hasKey_set, Dict.get?_set_self, Dict.get?_eq_none]
        · have hset : (inner.set a PyVal.none).hasKey k = inner.hasKey k := by
            rw [Dict.hasKey_set]
            simp [Ne.symm hk]
          by_cases hik : inner.hasKey k <;>
            simp [ha, ih, hset, hik, hk,
              Dict.get?_set_ne _ _ (fun hq => hk hq.symm)]

theorem hasKey_densify (allKeys : List String) (inner : Dict String PyVal) (k : String) :
    (densify allKeys inner).hasKey k = (inner.hasKey k || decide (k ∈ allKeys)) := by
  unfold Dict.hasKey
  rw [get?_densify]
  by_cases h1 : inner.hasKey k
  · have h1' : (inner.get? k).isSome = true := by simpa [Dict.hasKey] using h1
    simp [h1, h1']
  · have h1' : (inner.get? k).isSome = false := by
      simpa [Dict.hasKey] using h1
    by_cases h2 : k ∈ allKeys <;> simp [h1, h1', h2]

theorem Dict.get?_map_snd {κ β γ : Type} [DecidableEq κ] (data : Dict κ β)
    (f : β → γ) (t : κ) :
    Dict.get? (data.map (fun td => (td.1, f td.2))) t
      = (Dict.get? data t).map f := by
  induction data with
  | nil => rfl
  | cons td rest ih =>
      by_cases h : td.1 = t <;> simp [Dict.get?, h, ih]

theorem Dict.mem_keys_iff_hasKey {κ α : Type} [DecidableEq κ] (d : Dict κ α) (k : κ) :
    k ∈ d.keys ↔ d.hasKey k = true := by
  induction d with
  | nil => simp [Dict.keys, Dict.hasKey, Dict.get?]
  | cons p rest ih =>
      by_cases h : p.1 = k
      · subst h
        simp [Dict.keys, Dict.hasKey, Dict.get?]
      · have h' : ¬ k = p.1 := fun hq => h hq.symm
        simp only [Dict.keys, List.map_cons, List.mem_cons, h', false_or]
        simp only [Dict.keys] at ih
        rw [ih]
        simp [Dict.hasKey, Dict.get?, h]

/-- The removal list computed by `_prune_data` (its `keys_to_remove`,
in iteration order). -/
def removalKeys (data : Dict Datetime (Dict String PyVal)) : List String :=
  (allKeysDict data).keys.filter (fun k => shouldRemove data k)

/-- The dataset after the removal pass of `_prune_data` and before
densification. -/
def prunedOnce (data : Dict Datetime (Dict String PyVal)) :
    Dict Datetime (Dict String PyVal) :=
  data.map (fun td => (td.1, eraseKeys td.2 (removalKeys data)))

theorem pruneData_fst_eq (data : Dict Datetime (Dict String PyVal))
    (cats : Dict String String) :
    (pruneData data cats).1 = (prunedOnce data).map
      (fun td => (td.1, densify (allKeysDict (prunedOnce data)).keys td.2)) := rfl

theorem pruneData_snd_eq (data : Dict Datetime (Dict String PyVal))
    (cats : Dict String String) :
    (pruneData data cats).2 = (cats.keys.filter
      (fun i => !(Dict.hasKey (allKeysDict (prunedOnce data)) i))).foldl
        Dict.erase cats := rfl

theorem pruneData_get?_fst (data : Dict Datetime (Dict String PyVal))
    (cats : Dict String String) (t : Datetime) :
    Dict.get? (pruneData data cats).1 t
      = (Dict.get? (prunedOnce data) t).map
          (densify (allKeysDict (prunedOnce data)).keys) := by
  rw [pruneData_fst_eq]
  exact Dict.get?_map_snd (prunedOnce data)
    (densify (allKeysDict (prunedOnce data)).keys) t

theorem prunedOnce_get? (data : Dict Datetime (Dict String PyVal)) (t : Datetime) :
    Dict.get? (prunedOnce data) t
      = (Dict.get? data t).map (fun dt => eraseKeys dt (removalKeys data)) := by
  unfold prunedOnce
  exact Dict.get?_map_snd data (fun dt => eraseKeys dt (removalKeys data)) t

/-- Helper: the key set of every densified timestamp equals the key
universe computed after removal, independently of the timestamp. -/
theorem pruned_hasKey (data : Dict Datetime (Dict String PyVal))
    (cats : Dict String String) (t : Datetime) (d : Dict String PyVal)
    (h : Dict.get? (pruneData data cats).1 t = some d) (k : String) :
    Dict.hasKey d k = Dict.hasKey (allKeysDict (prunedOnce data)) k := by
  rw [pruneData_get?_fst] at h
  rcases hopt : Dict.get? (prunedOnce data) t with _ | d2t
  · rw [hopt] at h
    exact Option.noConfusion h
  · rw [hopt] at h
    have hd : d = densify (allKeysDict (prunedOnce data)).keys d2t := by
      simpa using h.symm
    subst hd
    rw [hasKey_densify]
    by_cases h2 : Dict.hasKey d2t k = true
    · have hmem : (t, d2t) ∈ prunedOnce data := Dict.get?_eq_some_mem hopt
      have hany : Dict.hasKey (allKeysDict (prunedOnce data)) k = true := by
        rw [hasKey_allKeysDict]
        exact List.any_eq_true.mpr ⟨(t, d2t), hmem, h2⟩
      simp [h2, hany]
    · have h2' : Dict.hasKey d2t k = false := by
        simpa using h2
      simp [h2', Dict.mem_keys_iff_hasKey]

/-- C1: after the parse-and-prune cycle every timestamp's inner mapping
carries the same key set; combinations never recorded at a timestamp
are filled with the null value; and a successful `parse` call exhibits
the invariant on its final dataset. -/
theorem c1_densification_invariant :
    (∀ (data : Dict Datetime (Dict String PyVal)) (cats : Dict String String)
        (t1 t2 : Datetime) (d1 d2 : Dict String PyVal),
        Dict.get? (pruneData data cats).1 t1 = some d1 →
        Dict.get? (pruneData data cats).1 t2 = some d2 →
        ∀ k, Dict.hasKey d1 k = Dict.hasKey d2 k) ∧
    (∀ (data : Dict Datetime (Dict String PyVal)) (cats : Dict String String)
        (t : Datetime) (d : Dict String PyVal) (k : String),
        Dict.get? (pruneData data cats).1 t = some d →
        Dict.hasKey d k = true → lookup2 data t k = none →
        Dict.get? d k = some PyVal.none) ∧
    (∀ (cfg : Config) (files : List (List String)) (st : PState),
        parse cfg files = .ok st →
        ∀ (t1 t2 : Datetime) (d1 d2 : Dict String PyVal),
          Dict.get? st.data t1 = some d1 → Dict.get? st.data t2 = some d2 →
          ∀ k, Dict.hasKey d1 k = Dict.hasKey d2 k) := by
  have hfill : ∀ (data : Dict Datetime (Dict String PyVal)) (cats : Dict String String)
      (t : Datetime) (d : Dict String PyVal) (k : String),
      Dict.get? (pruneData data cats).1 t = some d →
      Dict.hasKey d k = true → lookup2 data t k = none →
      Dict.get? d k = some PyVal.none := by
    intro data cats t d k h hk horig
    rw [pruneData_get?_fst, prunedOnce_get?] at h
    rcases hdt : Dict.get? data t with _ | dt
    · rw [hdt] at h
      exact Option.noConfusion h
    · rw [hdt] at h
      have hd : d = densify (allKeysDict (prunedOnce data)).keys
          (eraseKeys dt (removalKeys data)) := by
        simpa using h.symm
      have hdtk : Dict.get? dt k = none := by
        unfold lookup2 at horig
        rw [hdt] at horig
        simpa using horig
      have herase : Dict.get? (eraseKeys dt (removalKeys data)) k = none := by
        unfold eraseKeys
        rw [Dict.get?_foldl_erase]
        by_cases hmem : k ∈ removalKeys data <;> simp [hmem, hdtk]
      have herase' : Dict.hasKey (eraseKeys dt (removalKeys data)) k = false := by
        simp [Dict.hasKey, herase]
      subst hd
      rw [hasKey_densify, herase', Bool.false_or] at hk
      have hmem : k ∈ (allKeysDict (prunedOnce data)).keys := of_decide_eq_true hk
      rw [get?_densify, herase']
      simp [hmem]
  refine ⟨?_, hfill, ?_⟩
  · intro data cats t1 t2 d1 d2 h1 h2 k
    rw [pruned_hasKey data cats t1 d1 h1 k, pruned_hasKey data cats t2 d2 h2 k]
  · intro cfg files st hp t1 t2 d1 d2 h1 h2 k
    unfold parse at hp
    rcases hpf : parseFiles cfg initState files with e | st0
    · rw [hpf] at hp
      exact Except.noConfusion hp
    · rw [hpf] at hp
      cases hp
      have h1' : Dict.get? (pruneData st0.data st0.categories).1 t1 = some d1 := h1
      have h2' : Dict.get? (pruneData st0.data st0.categories).1 t2 = some d2 := h2
      rw [pruned_hasKey st0.data st0.categories t1 d1 h1' k,
        pruned_hasKey st0.data st0.categories t2 d2 h2' k]

/-- C1 witness dataset: key `z` is all-zero, keys `a` and `b` each
occur at only one of the two timestamps. -/
def c1data : Dict Datetime (Dict String PyVal) :=
  [(⟨2014, 1, 5, 12, 0, 0⟩, [("a", .num (.fin ⟨1, 1⟩)), ("z", .num (.fin ⟨0, 1⟩))]),
   (⟨2014, 1, 5, 12, 10, 0⟩, [("b", .str "x")])]

/-- C1 witness category index. -/
def c1cats : Dict String String := [("a", "A"), ("z", "Z"), ("b", "B")]

/-- C1 witness: pruned inner dictionary at the first timestamp. -/
def c1d1 : Dict String PyVal :=
  (Dict.get? (pruneData c1data c1cats).1 ⟨2014, 1, 5, 12, 0, 0⟩).getD []

/-- C1 witness: pruned inner dictionary at the second timestamp. -/
def c1d2 : Dict String PyVal :=
  (Dict.get? (pruneData c1data c1cats).1 ⟨2014, 1, 5, 12, 10, 0⟩).getD []

/-- C1 witness input file for the full parse. -/
def c1file : List String :=
  ["Linux 2.6.32 (host) 2014-01-05",
   "",
   "12:00:00     proc/s",
   "12:00:00    1.50",
   "12:10:00    0.00"]

/-- C1 witness: parsed state of the witness file. -/
def c1st : PState :=
  match parse {} [c1file] with
  | .ok s => s
  | .error _ => initState

/-- C1 witness: inner dictionaries of the parsed state. -/
def c1pd1 : Dict String PyVal :=
  (Dict.get? c1st.data ⟨2014, 1, 5, 12, 0, 0⟩).getD []

/-- C1 witness: second inner dictionary of the parsed state. -/
def c1pd2 : Dict String PyVal :=
  (Dict.get? c1st.data ⟨2014, 1, 5, 12, 10, 0⟩).getD []

/-- C1 witness: the densification invariant at concrete data. -/
theorem c1_witness :
    Dict.hasKey c1d1 "b" = Dict.hasKey c1d2 "b" ∧
    Dict.get? c1d2 "a" = some PyVal.none ∧
    Dict.hasKey c1pd1 "proc/s" = Dict.hasKey c1pd2 "proc/s" := by
  refine ⟨c1_densification_invariant.1 c1data c1cats
        ⟨2014, 1, 5, 12, 0, 0⟩ ⟨2014, 1, 5, 12, 10, 0⟩ c1d1 c1d2
        (by rfl) (by rfl) "b",
      c1_densification_invariant.2.1 c1data c1cats
        ⟨2014, 1, 5, 12, 10, 0⟩ c1d2 "a" (by rfl) (by rfl) (by rfl),
      c1_densification_invariant.2.2 {} [c1file] c1st (by rfl)
        ⟨2014, 1, 5, 12, 0, 0⟩ ⟨2014, 1, 5, 12, 10, 0⟩ c1pd1 c1pd2
        (by rfl) (by rfl) "proc/s"⟩

/-- C2: a column-key all of whose recorded values are the numeric zero
is removed by the prune pass from every timestamp's inner mapping, and
from the category index. -/
theorem c2_all_zero_keys_pruned (data : Dict Datetime (Dict String PyVal))
    (cats : Dict String String) (k : String)
    (hz : ∀ td ∈ data, ∀ v, Dict.get? td.2 k = some v → valueIsZero v = true) :
    (∀ (t : Datetime) (d : Dict String PyVal),
        Dict.get? (pruneData data cats).1 t = some d → Dict.get? d k = none) ∧
    Dict.get? (pruneData data cats).2 k = none := by
  have hsr : shouldRemove data k = true := by
    unfold shouldRemove
    rw [List.all_eq_true]
    intro td htd
    unfold keepsNonzero
    rcases hg : Dict.get? td.2 k with _ | v
    · simp
    · have := hz td htd v hg
      simp [this]
  have herase : ∀ td ∈ data,
      Dict.get? (eraseKeys td.2 (removalKeys data)) k = none := by
    intro td htd
    unfold eraseKeys
    rw [Dict.get?_foldl_erase]
    rcases hg : Dict.get? td.2 k with _ | v
    · by_cases hmem : k ∈ removalKeys data <;> simp [hmem, hg]
    · have hmem : k ∈ removalKeys data := by
        unfold removalKeys
        rw [List.mem_filter]
        constructor
        · rw [Dict.mem_keys_iff_hasKey, hasKey_allKeysDict]
          exact List.any_eq_true.mpr ⟨td, htd, by simp [Dict.hasKey, hg]⟩
        · simpa using hsr
      simp [hmem]
  have hak2 : Dict.hasKey (allKeysDict (prunedOnce data)) k = false := by
    rw [hasKey_allKeysDict]
    rw [Bool.eq_false_iff]
    intro hcon
    obtain ⟨td2, htd2, hk2⟩ := List.any_eq_true.mp hcon
    unfold prunedOnce at htd2
    obtain ⟨td, htd, rfl⟩ := List.mem_map.mp htd2
    simp only [Dict.hasKey, herase td htd] at hk2
    exact Bool.noConfusion hk2
  constructor
  · intro t d h
    rw [pruneData_get?_fst, prunedOnce_get?] at h
    rcases hdt : Dict.get? data t with _ | dt
    · rw [hdt] at h
      exact Option.noConfusion h
    · rw [hdt] at h
      have hd : d = densify (allKeysDict (prunedOnce data)).keys
          (eraseKeys dt (removalKeys data)) := by
        simpa using h.symm
      subst hd
      rw [get?_densify]
      have hmemdata : (t, dt) ∈ data := Dict.get?_eq_some_mem hdt
      have h1 : Dict.get? (eraseKeys dt (removalKeys data)) k = none :=
        herase (t, dt) hmemdata
      have h1' : Dict.hasKey (eraseKeys dt (removalKeys data)) k = false := by
        simp [Dict.hasKey, h1]
      have h2 : k ∉ (allKeysDict (prunedOnce data)).keys := by
        rw [Dict.mem_keys_iff_hasKey, hak2]
        simp
      simp [h1', h2]
  · rw [pruneData_snd_eq, Dict.get?_foldl_erase]
    rcases hg : Dict.get? cats k with _ | c
    · split <;> simp [hg]
    · have hmem : k ∈ cats.keys.filter
          (fun i => !(Dict.hasKey (allKeysDict (prunedOnce data)) i)) := by
        rw [List.mem_filter]
        refine ⟨?_, by simp [hak2]⟩
        rw [Dict.mem_keys_iff_hasKey]
        simp [Dict.hasKey, hg]
      simp [hmem]

/-- C2 witness data: a single timestamp holding only the all-zero key. -/
def c2data : Dict Datetime (Dict String PyVal) :=
  [(⟨2014, 1, 5, 12, 0, 0⟩, [("z", .num (.fin ⟨0, 1⟩))])]

/-- C2 witness categories. -/
def c2cats : Dict String String := [("z", "Z")]

/-- C2 witness: pruned inner dictionary. -/
def c2d : Dict String PyVal :=
  (Dict.get? (pruneData c2data c2cats).1 ⟨2014, 1, 5, 12, 0, 0⟩).getD []

/-- C2 witness: the all-zero key `z` vanishes from the data and from
the category index. -/
theorem c2_witness :
    Dict.get? c2d "z" = none ∧
    Dict.get? (pruneData c2data c2cats).2 "z" = none := by
  have hz : ∀ td ∈ c2data, ∀ v, Dict.get? td.2 "z" = some v →
      valueIsZero v = true := by
    intro td htd v hv
    simp only [c2data, List.mem_singleton] at htd
    subst htd
    simp [Dict.get?] at hv
    subst hv
    decide
  have h := c2_all_zero_keys_pruned c2data c2cats "z" hz
  exact ⟨h.1 ⟨2014, 1, 5, 12, 0, 0⟩ c2d (by rfl), h.2⟩

/-! ## Claim C8: gap detection -/

/-- Helper: a stretch whose consecutive deltas stay at or below the
threshold produces no gap tuples. -/
theorem gapScan_no_gaps (th : Int) :
    ∀ (l : List Datetime) (last : Datetime),
      List.Chain' (fun a b => (b.toSecs : Int) - (a.toSecs : Int) ≤ th) (last :: l) →
      gapScan th (some last) l = [] := by
  intro l
  induction l with
  | nil => intro last _; rfl
  | cons b rest ih =>
      intro last hch
      rw [List.chain'_cons] at hch
      unfold gapScan
      rw [if_neg (not_lt.mpr hch.1)]
      exact ih b hch.2

/-- Helper: a single above-threshold delta in an otherwise quiet
sequence yields exactly its gap tuple. -/
theorem gapScan_single (th : Int) :
    ∀ (l1 : List Datetime) (last t t' : Datetime) (l2 : List Datetime),
      List.Chain' (fun a b => (b.toSecs : Int) - (a.toSecs : Int) ≤ th) (last :: l1 ++ [t]) →
      (t'.toSecs : Int) - (t.toSecs : Int) > th →
      List.Chain' (fun a b => (b.toSecs : Int) - (a.toSecs : Int) ≤ th) (t' :: l2) →
      gapScan th (some last) (l1 ++ t :: t' :: l2) = [(t, t')] := by
  intro l1
  induction l1 with
  | nil =>
      intro last t t' l2 hpre hgap hpost
      simp only [List.cons_append, List.nil_append] at hpre
      rw [List.chain'_cons] at hpre
      simp only [List.nil_append]
      unfold gapScan
      rw [if_neg (not_lt.mpr hpre.1)]
      unfold gapScan
      rw [if_pos hgap, gapScan_no_gaps th l2 t' hpost]
  | cons x l1' ih =>
      intro last t t' l2 hpre hgap hpost
      simp only [List.cons_append] at hpre
      rw [List.chain'_cons] at hpre
      simp only [List.cons_append]
      unfold gapScan
      rw [if_neg (not_lt.mpr hpre.1)]
      exact ih x t t' l2 (by simpa [List.cons_append] using hpre.2) hgap hpost

/-- C8: with a computed sampling frequency of exactly 60 seconds, a
sorted timestamp sequence with exactly one consecutive delta of 600
seconds (all others at most 66 seconds) makes the gap query report
exactly the one tuple `(t, t + 600s)`. -/
theorem c8_single_gap_reported (st : PState) (t t' : Datetime)
    (l1 l2 : List Datetime)
    (hfreq : st.sampleFrequency = some (.fin ⟨60, 1⟩))
    (hsort : sortedTimestamps st.data = l1 ++ t :: t' :: l2)
    (hpre : List.Chain' (fun a b => (b.toSecs : Int) - (a.toSecs : Int) ≤ 66) (l1 ++ [t]))
    (hgap : (t'.toSecs : Int) - (t.toSecs : Int) = 600)
    (hpost : List.Chain' (fun a b => (b.toSecs : Int) - (a.toSecs : Int) ≤ 66) (t' :: l2)) :
    findDataGaps st = some [(t, t')] := by
  unfold findDataGaps
  rw [hfreq]
  have hth : gapThreshold (some (.fin ⟨60, 1⟩)) = some 66 := by decide
  rw [hth]
  simp only [Option.map_some']
  rw [hsort]
  have hgap' : (t'.toSecs : Int) - (t.toSecs : Int) > 66 := by
    rw [hgap]
    decide
  cases l1 with
  | nil =>
      simp only [List.nil_append]
      unfold gapScan
      unfold gapScan
      rw [if_pos hgap', gapScan_no_gaps 66 l2 t' hpost]
  | cons x l1' =>
      simp only [List.cons_append]
      unfold gapScan
      exact congrArg some (gapScan_single 66 l1' x t t' l2
        (by simpa [List.cons_append] using hpre) hgap' hpost)

/-- C8 witness state: two timestamps ten minutes apart, frequency
pinned at 60 seconds. -/
def c8st : PState :=
  { data := [(⟨2014, 1, 5, 12, 0, 0⟩, []), (⟨2014, 1, 5, 12, 10, 0⟩, [])],
    sampleFrequency := some (.fin ⟨60, 1⟩) }

/-- C8 witness: the one 600-second interval is reported as the one gap. -/
theorem c8_witness :
    findDataGaps c8st
      = some [(⟨2014, 1, 5, 12, 0, 0⟩, ⟨2014, 1, 5, 12, 10, 0⟩)] :=
  c8_single_gap_reported c8st ⟨2014, 1, 5, 12, 0, 0⟩ ⟨2014, 1, 5, 12, 10, 0⟩ [] []
    rfl (by rfl) (by simp) (by decide) (by simp)

/-! ### C9: duplicate column-keys — last writer wins, line registered -/

/-- Helper: appending on the right of a fixed string is injective, so
distinct headers give distinct composite `indexcol#indexval#header`
keys. -/
theorem string_append_right_inj (p : String) {x y : String}
    (h : p ++ x = p ++ y) : x = y := by
  have hd := congrArg String.data h
  rw [String.data_append, String.data_append] at hd
  exact String.ext (List.append_cancel_left hd)

/-- Helper: shifting the capture-availability hypothesis one column to
the right. -/
theorem capsShift (caps : Caps) (counter len : Nat)
    (h : ∀ j, j < len + 1 → (capGet caps (counter + j + 2)).isSome = true) :
    ∀ j, j < len → (capGet caps (counter + 1 + j + 2)).isSome = true := by
  intro j hj
  have h2 := h (j + 1) (by omega)
  have harith : counter + (j + 1) + 2 = counter + 1 + j + 2 := by omega
  rw [harith] at h2
  exact h2

/-- Helper: with all capture groups available and no rename-hack
interference, the 2D loop succeeds, leaves keys outside the header list
untouched, and preserves the duplicate registry. -/
theorem record2D_run (t : Datetime) (caps : Caps) :
    ∀ (hdrs : List String) (st : PState) (prev : String) (counter : Nat),
      "retrans/s" ∉ hdrs →
      (∀ j, j < hdrs.length → (capGet caps (counter + j + 2)).isSome = true) →
      ∃ st', record2D st t caps hdrs prev counter = .ok st' ∧
        (∀ k, k ∉ hdrs → lookup2 st'.data t k = lookup2 st.data t k) ∧
        (∀ n, Dict.get? st.duplicates n = some true →
          Dict.get? st'.duplicates n = some true) := by
  intro hdrs
  induction hdrs with
  | nil =>
      intro st prev counter _ _
      exact ⟨st, rfl, fun _ _ => rfl, fun _ hn => hn⟩
  | cons hd rest ih =>
      intro st prev counter hnr hcaps
      have hhd : ¬ hd = "retrans/s" := fun hq => hnr (by rw [hq]; exact List.mem_cons_self _ _)
      have hI : (if hd = "retrans/s" && prev = "estres/s" then "retrant/s" else hd) = hd := by
        simp [hhd]
      have hcap0 : (capGet caps (counter + 2)).isSome = true := by
        simpa using hcaps 0 (by simp)
      rcases hcg : capGet caps (counter + 2) with _ | raw
      · rw [hcg] at hcap0; simp at hcap0
      · obtain ⟨st', hok, hfr, hdup⟩ := ih
          (writeDatum (flagDuplicate st t hd) t hd (pyValOf raw)) hd (counter + 1)
          (fun hmem => hnr (List.mem_cons_of_mem _ hmem))
          (capsShift caps counter rest.length hcaps)
        refine ⟨st', ?_, ?_, ?_⟩
        · show record2D st t caps (hd :: rest) prev counter = .ok st'
          unfold record2D
          rw [hcg]
          dsimp only
          rw [hI]
          exact hok
        · intro k hk
          have h1 : k ∉ rest := fun hq => hk (List.mem_cons_of_mem _ hq)
          have h2 : ¬ hd = k := fun hq => hk (by rw [hq]; exact List.mem_cons_self _ _)
          rw [hfr k h1, writeDatum_lookup_ne _ _ _ _ h2, (flagDuplicate_frame st t hd).1]
        · intro n hn
          exact hdup n (flagDuplicate_dup_preserve st t hd n hn)

/-- Helper: when the key for a header is already present at the
timestamp, the 2D loop records the newly captured value over the old
one and adds the line number to the duplicate registry, completing the
rest of the row. -/
theorem record2D_main (t : Datetime) (caps : Caps) :
    ∀ (l1 : List String) (h : String) (l2 : List String) (st : PState)
      (prev : String) (counter : Nat),
      "retrans/s" ∉ l1 ++ h :: l2 → h ∉ l1 → h ∉ l2 →
      (∀ j, j < (l1 ++ h :: l2).length → (capGet caps (counter + j + 2)).isSome = true) →
      lookup2 st.data t h ≠ none →
      ∃ st' raw,
        record2D st t caps (l1 ++ h :: l2) prev counter = .ok st' ∧
        capGet caps (counter + l1.length + 2) = some raw ∧
        lookup2 st'.data t h = some (pyValOf raw) ∧
        Dict.get? st'.duplicates st.linecount = some true := by
  intro l1
  induction l1 with
  | nil =>
      intro h l2 st prev counter hnr _ hl2 hcaps hpre
      have hhd : ¬ h = "retrans/s" := fun hq => hnr (by rw [hq]; exact List.mem_cons_self _ _)
      have hI : (if h = "retrans/s" && prev = "estres/s" then "retrant/s" else h) = h := by
        simp [hhd]
      have hcap0 : (capGet caps (counter + 2)).isSome = true := by
        simpa using hcaps 0 (by simp)
      rcases hcg : capGet caps (counter + 2) with _ | raw
      · rw [hcg] at hcap0; simp at hcap0
      · obtain ⟨st', hok, hfr, hdup⟩ := record2D_run t caps l2
          (writeDatum (flagDuplicate st t h) t h (pyValOf raw)) h (counter + 1)
          (fun hmem => hnr (List.mem_cons_of_mem _ hmem))
          (capsShift caps counter l2.length hcaps)
        refine ⟨st', raw, ?_, ?_, ?_, ?_⟩
        · show record2D st t caps (h :: l2) prev counter = .ok st'
          unfold record2D
          rw [hcg]
          dsimp only
          rw [hI]
          exact hok
        · exact hcg
        · rw [hfr h hl2]
          exact writeDatum_lookup_self (flagDuplicate st t h) t h (pyValOf raw)
        · exact hdup st.linecount (flagDuplicate_dup_hit st t h hpre)
  | cons x l1' ih =>
      intro h l2 st prev counter hnr hl1 hl2 hcaps hpre
      have hx : ¬ x = "retrans/s" := fun hq => hnr (by rw [hq]; exact List.mem_cons_self _ _)
      have hI : (if x = "retrans/s" && prev = "estres/s" then "retrant/s" else x) = x := by
        simp [hx]
      have hxh : ¬ x = h := fun hq => hl1 (by rw [hq]; exact List.mem_cons_self _ _)
      have hcap0 : (capGet caps (counter + 2)).isSome = true := by
        simpa using hcaps 0 (by simp)
      rcases hcg : capGet caps (counter + 2) with _ | raw
      · rw [hcg] at hcap0; simp at hcap0
      · have hpre2 : lookup2
            (writeDatum (flagDuplicate st t x) t x (pyValOf raw)).data t h ≠ none := by
          rw [writeDatum_lookup_ne _ _ _ _ hxh, (flagDuplicate_frame st t x).1]
          exact hpre
        obtain ⟨st', raw', hok, hcres, hval, hdup⟩ := ih h l2
          (writeDatum (flagDuplicate st t x) t x (pyValOf raw)) x (counter + 1)
          (fun hmem => hnr (List.mem_cons_of_mem _ hmem))
          (fun hmem => hl1 (List.mem_cons_of_mem _ hmem)) hl2
          (capsShift caps counter (l1' ++ h :: l2).length hcaps) hpre2
        have harith : counter + 1 + l1'.length + 2 = counter + (x :: l1').length + 2 := by
          simp only [List.length_cons]
          omega
        rw [harith] at hcres
        have hlc : (writeDatum (flagDuplicate st t x) t x (pyValOf raw)).linecount
            = st.linecount := (flagDuplicate_frame st t x).2.2.2
        rw [hlc] at hdup
        refine ⟨st', raw', ?_, hcres, hval, hdup⟩
        show record2D st t caps (x :: (l1' ++ h :: l2)) prev counter = .ok st'
        unfold record2D
        rw [hcg]
        dsimp only
        rw [hI]
        exact hok

/-- Helper: with all capture groups available, the 3D loop succeeds,
leaves keys distinct from every traversed composite key untouched, and
preserves the duplicate registry. -/
theorem record3D_run (t : Datetime) (caps : Caps) (ic iv : String) (col : Nat) :
    ∀ (hdrs : List String) (st : PState) (counter : Nat),
      (∀ j, j < hdrs.length → (capGet caps (counter + j + 2)).isSome = true) →
      ∃ st', record3D st t caps ic iv col hdrs counter = .ok st' ∧
        (∀ k, (∀ x, x ∈ hdrs → ¬ k = ic ++ "#" ++ iv ++ "#" ++ x) →
          lookup2 st'.data t k = lookup2 st.data t k) ∧
        (∀ n, Dict.get? st.duplicates n = some true →
          Dict.get? st'.duplicates n = some true) := by
  intro hdrs
  induction hdrs with
  | nil =>
      intro st counter _
      exact ⟨st, rfl, fun _ _ => rfl, fun _ hn => hn⟩
  | cons hd rest ih =>
      intro st counter hcaps
      by_cases hcc : counter = col
      · obtain ⟨st', hok, hfr, hdup⟩ := ih st (counter + 1)
          (capsShift caps counter rest.length hcaps)
        refine ⟨st', ?_, ?_, hdup⟩
        · show record3D st t caps ic iv col (hd :: rest) counter = .ok st'
          unfold record3D
          rw [if_pos hcc]
          exact hok
        · intro k hk
          exact hfr k (fun x hx => hk x (List.mem_cons_of_mem _ hx))
      · have hcap0 : (capGet caps (counter + 2)).isSome = true := by
          simpa using hcaps 0 (by simp)
        rcases hcg : capGet caps (counter + 2) with _ | raw
        · rw [hcg] at hcap0; simp at hcap0
        · obtain ⟨st', hok, hfr, hdup⟩ := ih
            (writeDatum (flagDuplicate st t (ic ++ "#" ++ iv ++ "#" ++ hd)) t
              (ic ++ "#" ++ iv ++ "#" ++ hd) (pyValOf raw)) (counter + 1)
            (capsShift caps counter rest.length hcaps)
          refine ⟨st', ?_, ?_, ?_⟩
          · show record3D st t caps ic iv col (hd :: rest) counter = .ok st'
            unfold record3D
            rw [if_neg hcc, hcg]
            dsimp only
            exact hok
          · intro k hk
            have h1 : ∀ x, x ∈ rest → ¬ k = ic ++ "#" ++ iv ++ "#" ++ x :=
              fun x hx => hk x (List.mem_cons_of_mem _ hx)
            have h2 : ¬ (ic ++ "#" ++ iv ++ "#" ++ hd) = k :=
              fun hq => hk hd (List.mem_cons_self _ _) hq.symm
            rw [hfr k h1, writeDatum_lookup_ne _ _ _ _ h2,
              (flagDuplicate_frame st t (ic ++ "#" ++ iv ++ "#" ++ hd)).1]
          · intro n hn
            exact hdup n
              (flagDuplicate_dup_preserve st t (ic ++ "#" ++ iv ++ "#" ++ hd) n hn)

/-- Helper: when the composite key for a header is already present at
the timestamp (and the header's position is not the skipped index
column), the 3D loop records the newly captured value over the old one
and adds the line number to the duplicate registry, completing the rest
of the row. -/
theorem record3D_main (t : Datetime) (caps : Caps) (ic iv : String) (col : Nat) :
    ∀ (l1 : List String) (h : String) (l2 : List String) (st : PState) (counter : Nat),
      h ∉ l1 → h ∉ l2 → counter + l1.length ≠ col →
      (∀ j, j < (l1 ++ h :: l2).length → (capGet caps (counter + j + 2)).isSome = true) →
      lookup2 st.data t (ic ++ "#" ++ iv ++ "#" ++ h) ≠ none →
      ∃ st' raw,
        record3D st t caps ic iv col (l1 ++ h :: l2) counter = .ok st' ∧
        capGet caps (counter + l1.length + 2) = some raw ∧
        lookup2 st'.data t (ic ++ "#" ++ iv ++ "#" ++ h) = some (pyValOf raw) ∧
        Dict.get? st'.duplicates st.linecount = some true := by
  intro l1
  induction l1 with
  | nil =>
      intro h l2 st counter _ hl2 hcol hcaps hpre
      have hcc : ¬ counter = col := by simpa using hcol
      have hcap0 : (capGet caps (counter + 2)).isSome = true := by
        simpa using hcaps 0 (by simp)
      rcases hcg : capGet caps (counter + 2) with _ | raw
      · rw [hcg] at hcap0; simp at hcap0
      · obtain ⟨st', hok, hfr, hdup⟩ := record3D_run t caps ic iv col l2
          (writeDatum (flagDuplicate st t (ic ++ "#" ++ iv ++ "#" ++ h)) t
            (ic ++ "#" ++ iv ++ "#" ++ h) (pyValOf raw)) (counter + 1)
          (capsShift caps counter l2.length hcaps)
        refine ⟨st', raw, ?_, ?_, ?_, ?_⟩
        · show record3D st t caps ic iv col (h :: l2) counter = .ok st'
          unfold record3D
          rw [if_neg hcc, hcg]
          dsimp only
          exact hok
        · exact hcg
        · have hne : ∀ x, x ∈ l2 → ¬ (ic ++ "#" ++ iv ++ "#" ++ h) = ic ++ "#" ++ iv ++ "#" ++ x :=
            fun x hx hq => hl2 (by rw [string_append_right_inj _ hq]; exact hx)
          rw [hfr _ hne]
          exact writeDatum_lookup_self _ t _ (pyValOf raw)
        · exact hdup st.linecount
            (flagDuplicate_dup_hit st t (ic ++ "#" ++ iv ++ "#" ++ h) hpre)
  | cons x l1' ih =>
      intro h l2 st counter hl1 hl2 hcol hcaps hpre
      have hxh : ¬ x = h := fun hq => hl1 (by rw [hq]; exact List.mem_cons_self _ _)
      have hcol' : counter + 1 + l1'.length ≠ col := by
        simp only [List.length_cons] at hcol
        omega
      have harith : counter + 1 + l1'.length + 2 = counter + (x :: l1').length + 2 := by
        simp only [List.length_cons]
        omega
      by_cases hcc : counter = col
      · obtain ⟨st', raw', hok, hcres, hval, hdup⟩ := ih h l2 st (counter + 1)
          (fun hmem => hl1 (List.mem_cons_of_mem _ hmem)) hl2 hcol'
          (capsShift caps counter (l1' ++ h :: l2).length hcaps) hpre
        rw [harith] at hcres
        refine ⟨st', raw', ?_, hcres, hval, hdup⟩
        show record3D st t caps ic iv col (x :: (l1' ++ h :: l2)) counter = .ok st'
        unfold record3D
        rw [if_pos hcc]
        exact hok
      · have hcap0 : (capGet caps (counter + 2)).isSome = true := by
          simpa using hcaps 0 (by simp)
        rcases hcg : capGet caps (counter + 2) with _ | raw
        · rw [hcg] at hcap0; simp at hcap0
        · have hkne : ¬ (ic ++ "#" ++ iv ++ "#" ++ x) = ic ++ "#" ++ iv ++ "#" ++ h :=
            fun hq => hxh (string_append_right_inj _ hq)
          have hpre2 : lookup2
              (writeDatum (flagDuplicate st t (ic ++ "#" ++ iv ++ "#" ++ x)) t
                (ic ++ "#" ++ iv ++ "#" ++ x) (pyValOf raw)).data t
              (ic ++ "#" ++ iv ++ "#" ++ h) ≠ none := by
            rw [writeDatum_lookup_ne _ _ _ _ hkne,
              (flagDuplicate_frame st t (ic ++ "#" ++ iv ++ "#" ++ x)).1]
            exact hpre
          obtain ⟨st', raw', hok, hcres, hval, hdup⟩ := ih h l2
            (writeDatum (flagDuplicate st t (ic ++ "#" ++ iv ++ "#" ++ x)) t
              (ic ++ "#" ++ iv ++ "#" ++ x) (pyValOf raw)) (counter + 1)
            (fun hmem => hl1 (List.mem_cons_of_mem _ hmem)) hl2 hcol'
            (capsShift caps counter (l1' ++ h :: l2).length hcaps) hpre2
          rw [harith] at hcres
          have hlc : (writeDatum (flagDuplicate st t (ic ++ "#" ++ iv ++ "#" ++ x)) t
              (ic ++ "#" ++ iv ++ "#" ++ x) (pyValOf raw)).linecount
              = st.linecount := (flagDuplicate_frame st t _).2.2.2
          rw [hlc] at hdup
          refine ⟨st', raw', ?_, hcres, hval, hdup⟩
          show record3D st t caps ic iv col (x :: (l1' ++ h :: l2)) counter = .ok st'
          unfold record3D
          rw [if_neg hcc, hcg]
          dsimp only
          exact hok

/-- **C9.** When a column-key — simple (2D case) or composite
`indexcol#indexval#header` (3D case) — is written again for a timestamp
that already holds a value for it, the recording loops of `_record_data`
replace the earlier value with the value captured at that column (last
writer wins), add the current line number to the duplicate registry,
and complete the rest of the row normally. -/
theorem c9_duplicate_last_writer_wins :
    (∀ (t : Datetime) (caps : Caps) (l1 : List String) (h : String)
        (l2 : List String) (st : PState) (prev : String) (counter : Nat),
      "retrans/s" ∉ l1 ++ h :: l2 → h ∉ l1 → h ∉ l2 →
      (∀ j, j < (l1 ++ h :: l2).length → (capGet caps (counter + j + 2)).isSome = true) →
      (lookup2 st.data t h).isSome = true →
      ∃ st' raw,
        record2D st t caps (l1 ++ h :: l2) prev counter = .ok st' ∧
        capGet caps (counter + l1.length + 2) = some raw ∧
        lookup2 st'.data t h = some (pyValOf raw) ∧
        Dict.get? st'.duplicates st.linecount = some true) ∧
    (∀ (t : Datetime) (caps : Caps) (ic iv : String) (col : Nat)
        (l1 : List String) (h : String) (l2 : List String) (st : PState) (counter : Nat),
      h ∉ l1 → h ∉ l2 → counter + l1.length ≠ col →
      (∀ j, j < (l1 ++ h :: l2).length → (capGet caps (counter + j + 2)).isSome = true) →
      (lookup2 st.data t (ic ++ "#" ++ iv ++ "#" ++ h)).isSome = true →
      ∃ st' raw,
        record3D st t caps ic iv col (l1 ++ h :: l2) counter = .ok st' ∧
        capGet caps (counter + l1.length + 2) = some raw ∧
        lookup2 st'.data t (ic ++ "#" ++ iv ++ "#" ++ h) = some (pyValOf raw) ∧
        Dict.get? st'.duplicates st.linecount = some true) := by
  constructor
  · intro t caps l1 h l2 st prev counter hnr hl1 hl2 hcaps hpre
    exact record2D_main t caps l1 h l2 st prev counter hnr hl1 hl2 hcaps
      (Option.ne_none_iff_isSome.mpr hpre)
  · intro t caps ic iv col l1 h l2 st counter hl1 hl2 hcol hcaps hpre
    exact record3D_main t caps ic iv col l1 h l2 st counter hl1 hl2 hcol hcaps
      (Option.ne_none_iff_isSome.mpr hpre)

/-- C9 witness timestamp. -/
def c9t : Datetime := ⟨2014, 1, 5, 12, 0, 0⟩

/-- C9 witness capture groups: one value column captured as group 2. -/
def c9caps : Caps := [(2, "5.0")]

/-- C9 witness state for the 2D case: `%usr` already recorded at the
timestamp. -/
def c9st2 : PState :=
  { data := [(c9t, [("%usr", pyValOf "1.0")])], linecount := 7 }

/-- C9 witness state for the 3D case: composite key `CPU#1#%idle`
already recorded at the timestamp. -/
def c9st3 : PState :=
  { data := [(c9t, [("CPU#1#%idle", pyValOf "2.0")])], linecount := 3 }

/-- C9 witness: one-column rows rewriting the pre-existing simple key
`%usr` and composite key `CPU#1#%idle`. -/
theorem c9_witness :
    ((lookup2 c9st2.data c9t "%usr").isSome = true ∧
      ∃ st' raw,
        record2D c9st2 c9t c9caps ["%usr"] "" 0 = .ok st' ∧
        capGet c9caps 2 = some raw ∧
        lookup2 st'.data c9t "%usr" = some (pyValOf raw) ∧
        Dict.get? st'.duplicates 7 = some true) ∧
    ((lookup2 c9st3.data c9t ("CPU" ++ "#" ++ "1" ++ "#" ++ "%idle")).isSome = true ∧
      ∃ st' raw,
        record3D c9st3 c9t c9caps "CPU" "1" 5 ["%idle"] 0 = .ok st' ∧
        capGet c9caps 2 = some raw ∧
        lookup2 st'.data c9t ("CPU" ++ "#" ++ "1" ++ "#" ++ "%idle") = some (pyValOf raw) ∧
        Dict.get? st'.duplicates 3 = some true) := by
  constructor
  · refine ⟨rfl, ?_⟩
    exact c9_duplicate_last_writer_wins.1 c9t c9caps [] "%usr" [] c9st2 "" 0
      (by decide) (by decide) (by decide)
      (by
        intro j hj
        have hz : j = 0 := Nat.lt_one_iff.mp hj
        subst hz
        rfl)
      rfl
  · refine ⟨rfl, ?_⟩
    exact c9_duplicate_last_writer_wins.2 c9t c9caps "CPU" "1" 5 [] "%idle" [] c9st3 0
      (by decide) (by decide) (by decide)
      (by
        intro j hj
        have hz : j = 0 := Nat.lt_one_iff.mp hj
        subst hz
        rfl)
      rfl

end SarStats
